import Mathlib

/-!
Verification development for the DXF codec of the `autocad-llm-sync` tool
(`src/tools/autocad-llm-sync/dxf-parser.service.ts`,
`src/tools/autocad-llm-sync/json-to-dxf.service.ts`, and the `jsonToScr`
reference implementation in `development_docs/autocad-llm-sync-planning.md`).

The TypeScript sources are shallowly embedded:
* JavaScript numbers are modelled by `JsNum`: an exact rational for every
  finite double, plus a `nan` constructor (±Infinity never arises in the
  codec paths modelled here).  Number-to-string conversion is modelled as
  plain positional decimal rendering, which agrees in value with JavaScript
  `ToString` on every finite double (JS prints a decimal string that parses
  back to the same number); `Number.parseFloat` is modelled faithfully
  (whitespace skip, sign, digits, fraction, exponent, NaN on no digits).
* JavaScript strings that may be `undefined` at runtime are modelled as
  `Option String`; interpolating `undefined` yields `"undefined"` and
  `parseFloat(undefined)` is NaN, as in JS.
* The imperative scanning loops (index `i` stepping by 2 over the trimmed
  line array, reading `lines[i]`/`lines[i+1]`) become recursions over the
  remaining suffix of the line list; all reads are at offsets ≥ `i`, so the
  suffix determines the behaviour exactly.
* The impure timestamp `new Date().toISOString()` in the parser's metadata
  becomes an explicit `now : String` argument.
-/

set_option maxRecDepth 40000
set_option exponentiation.threshold 2000

namespace CadCodec

/-! ### JavaScript string primitives -/

/-- The characters JS `String.prototype.trim` strips: the ECMAScript
WhiteSpace set (tab, VT, FF, space, NBSP, ZWNBSP and the Unicode
Space_Separator category: Ogham space mark, U+2000–U+200A, narrow NBSP,
medium mathematical space, ideographic space) together with the
LineTerminator set (LF, CR, LS, PS). -/
def isWs (c : Char) : Bool :=
  (c == ' ') || (c == '\t') || (c == '\n') || (c == '\r') || (c == '\x0b') || (c == '\x0c')
    || (c == '\u00A0') || (c == '\u1680')
    || ((decide ('\u2000' ≤ c)) && (decide (c ≤ '\u200A')))
    || (c == '\u2028') || (c == '\u2029') || (c == '\u202F') || (c == '\u205F')
    || (c == '\u3000') || (c == '\uFEFF')

/-- Drop leading and trailing whitespace characters. -/
def trimChars (cs : List Char) : List Char :=
  ((cs.dropWhile isWs).reverse.dropWhile isWs).reverse

/-- Embedding of `line.trim()`. -/
def jsTrim (s : String) : String := String.mk (trimChars s.data)

/-- A string that survives the line discipline of the format unchanged: it
contains no newline (so `split('\n')` keeps it on one line) and is left
untouched by `trim()` (no leading or trailing whitespace; interior
whitespace is fine). -/
def lineSafe (s : String) : Prop := '\n' ∉ s.data ∧ jsTrim s = s

instance (s : String) : Decidable (lineSafe s) := by unfold lineSafe; infer_instance

/-- Character-level embedding of `text.split('\n')`: split on every newline,
keeping empty segments (an empty input gives one empty segment). -/
def splitNlChars : List Char → List (List Char)
  | [] => [[]]
  | c :: cs =>
    match splitNlChars cs with
    | [] => [[]]
    | l :: ls => if c = '\n' then [] :: l :: ls else (c :: l) :: ls

/-- Embedding of `fileContent.split('\n')`. -/
def splitLines (s : String) : List String := (splitNlChars s.data).map String.mk

/-- The encoder builds its output as a concatenation of chunks each of which
is a sequence of lines, every line followed by `'\n'`.  `linesToText ls`
is that concatenation. -/
def linesToText (ls : List String) : String :=
  ls.foldr (fun l acc => l ++ "\n" ++ acc) ""

/-! ### JavaScript numbers -/

/-- A JavaScript number as the codec uses it: either NaN or a finite double,
the latter represented by its exact rational value. -/
inductive JsNum where
  | nan : JsNum
  | num : ℚ → JsNum
deriving DecidableEq, Repr

/-- The character for a decimal digit (`'*'` on out-of-range input, which the
codec never produces). -/
def digitChar (n : ℕ) : Char :=
  if n = 0 then '0' else if n = 1 then '1' else if n = 2 then '2'
  else if n = 3 then '3' else if n = 4 then '4' else if n = 5 then '5'
  else if n = 6 then '6' else if n = 7 then '7' else if n = 8 then '8'
  else if n = 9 then '9' else '*'

/-- Numeric value of a decimal digit character. -/
def digitVal (c : Char) : ℕ := c.toNat - 48

/-- Is `c` one of `'0'`..`'9'`? -/
def isDigitChar (c : Char) : Bool := (decide ('0' ≤ c)) && (decide (c ≤ '9'))

/-- Value of a most-significant-first digit string. -/
def natOfDigits (ds : List Char) : ℕ := ds.foldl (fun a c => a * 10 + digitVal c) 0

/-- Decimal digits of `n`, most significant first (fuel-driven so that it is
structurally recursive; `fuel ≥` the number of digits suffices). -/
def natToDigitsAux : ℕ → ℕ → List Char
  | 0, _ => []
  | fuel + 1, n => if n < 10 then [digitChar n] else natToDigitsAux fuel (n / 10) ++ [digitChar (n % 10)]

/-- Decimal rendering of a natural number, as JS does for integral doubles. -/
def natToString (n : ℕ) : String := String.mk (natToDigitsAux (n + 1) n)

/-- Decimal digits after the point of the fraction `n / d` (with `n < d`),
stopping when the remainder is exhausted.  Terminates within `fuel`
digits; for every number a double can carry, `decFuel` digits suffice. -/
def fracDigits : ℕ → ℕ → ℕ → List Char
  | 0, _, _ => []
  | fuel + 1, n, d => if n = 0 then [] else digitChar (n * 10 / d) :: fracDigits fuel (n * 10 % d) d

/-- Digit budget for fractional rendering: every finite double is
`m / 2^e` with `e ≤ 1074`, so its decimal expansion has at most 1100
fractional digits. -/
def decFuel : ℕ := 1100

/-- Value-faithful model of JS number-to-string (template interpolation
`${x}`): sign, integer part, and exact fractional digits.  JS switches to
exponent notation for extreme magnitudes, but the produced string always
parses back to the same value, which is the property the codec relies on. -/
def numToString : JsNum → String
  | JsNum.nan => "NaN"
  | JsNum.num q =>
    let n := q.num.natAbs
    let frac := fracDigits decFuel (n % q.den) q.den
    (if q.num < 0 then "-" else "") ++ natToString (n / q.den)
      ++ (if frac.isEmpty then "" else "." ++ String.mk frac)

/-- Longest prefix of decimal digits, and the remainder. -/
def spanDigits : List Char → List Char × List Char
  | [] => ([], [])
  | c :: cs =>
    if isDigitChar c then
      let p := spanDigits cs
      (c :: p.1, p.2)
    else ([], c :: cs)

/-- Optional leading sign. -/
def splitSign : List Char → Bool × List Char
  | [] => (false, [])
  | c :: cs => if c = '-' then (true, cs) else if c = '+' then (false, cs) else (false, c :: cs)

/-- Optional `.digits` part. -/
def parseFrac : List Char → List Char × List Char
  | [] => ([], [])
  | c :: cs => if c = '.' then spanDigits cs else ([], c :: cs)

/-- Optional exponent suffix `e±digits`; consumed only when at least one
digit follows, as in JS `parseFloat` (`"1e"` parses as `1`). -/
def parseExpo : List Char → ℤ
  | [] => 0
  | c :: cs =>
    if c = 'e' ∨ c = 'E' then
      match cs with
      | [] => 0
      | c2 :: cs2 =>
        if c2 = '-' then
          (if (spanDigits cs2).1.isEmpty then 0 else -(natOfDigits (spanDigits cs2).1 : ℤ))
        else if c2 = '+' then
          (if (spanDigits cs2).1.isEmpty then 0 else (natOfDigits (spanDigits cs2).1 : ℤ))
        else
          (if (spanDigits (c2 :: cs2)).1.isEmpty then 0 else (natOfDigits (spanDigits (c2 :: cs2)).1 : ℤ))
    else 0

/-- Model of `Number.parseFloat` on a character list: skip whitespace, read
an optional sign, an integer part, an optional fraction, an optional
exponent; NaN when no digit was found.  The literal's exact value
`±(I + F/10^L)·10^e` is produced as one normalized fraction (`mkRat`),
using only natural-number arithmetic so that concrete inputs evaluate. -/
def parseFloatChars (cs : List Char) : JsNum :=
  let cs1 := cs.dropWhile isWs
  let sg := splitSign cs1
  let p1 := spanDigits sg.2
  let p2 := parseFrac p1.2
  if p1.1.isEmpty && p2.1.isEmpty then JsNum.nan
  else
    let L := p2.1.length
    let mant : ℕ := natOfDigits p1.1 * 10 ^ L + natOfDigits p2.1
    let e := parseExpo p2.2
    let v : ℚ :=
      if 0 ≤ e then mkRat (Int.ofNat (mant * 10 ^ e.toNat)) (10 ^ L)
      else mkRat (Int.ofNat mant) (10 ^ L * 10 ^ (-e).toNat)
    JsNum.num (if sg.1 then Rat.neg v else v)

/-- `Number.parseFloat` on a string. -/
def parseFloat (s : String) : JsNum := parseFloatChars s.data

/-- `Number.parseFloat` applied to a line that may be `undefined` (out of
range): JS stringifies `undefined` to `"undefined"`, which parses to NaN. -/
def parseFloatOpt : Option String → JsNum
  | some s => parseFloat s
  | none => JsNum.nan

/-! ### Data model (`autocad-llm-sync.types.ts`)

`CadEntity` is a TypeScript record with optional per-kind fields.  Numeric
triples (`[x,y,z]` arrays and the `{x,y,z}` center object, which are
interchangeable for the codec) become `Vec3`; fields that may be absent
(`undefined`) become `Option`.  The `type` tag is `Option String`: the TS
type lists the known tag strings, but at runtime the tag is an arbitrary
string and may even be missing (the situation §7 of the spec calls a
schema error). -/

/-- A numeric triple: a `[x, y, z]` array or `{x, y, z}` object. -/
structure Vec3 where
  x : JsNum
  y : JsNum
  z : JsNum
deriving DecidableEq, Repr

/-- A POLYLINE/LWPOLYLINE vertex (`{ x, y, z?, bulge? }`). -/
structure Vertex where
  x : JsNum
  y : JsNum
  z : Option JsNum := none
  bulge : Option JsNum := none
deriving DecidableEq, Repr

/-- One CAD entity (`CadEntity` in `autocad-llm-sync.types.ts`).  The TS
interface ends with an open `[key: string]: any` bag for extra properties
of the external `dxf-parser` library; that library is not bundled
(see `parseDxfToJson`), no codec path reads or writes such extras, and
spec §9 directs the representation to become this closed sum-free record,
so the bag is not modelled. -/
structure CadEntity where
  type : Option String := none
  /-- `layer : string` in TS; `none` models a runtime `undefined`. -/
  layer : Option String := none
  start : Option Vec3 := none
  «end» : Option Vec3 := none
  block : Option String := none
  insertion_point : Option Vec3 := none
  scale : Option Vec3 := none
  rotation : Option JsNum := none
  center : Option Vec3 := none
  radius : Option JsNum := none
  vertices : Option (List Vertex) := none
  shape : Option Bool := none
  text : Option String := none
  position : Option Vec3 := none
  height : Option JsNum := none
  handle : Option String := none
  ownerHandle : Option String := none
deriving DecidableEq, Repr

/-- Document metadata (`CadDocument.metadata`). -/
structure Metadata where
  filename : Option String := none
  lastModified : Option String := none
  version : Option JsNum := none
deriving DecidableEq, Repr

/-- A CAD document (`CadDocument` in `autocad-llm-sync.types.ts`). -/
structure CadDocument where
  entities : List CadEntity
  metadata : Option Metadata := none
deriving DecidableEq, Repr

/-! ### Decoder (`dxf-parser.service.ts`)

The source iterates an index `i` by 2 over the trimmed line array, reading
`lines[i]` and `lines[i+1]`; every access is at offset ≥ `i`, so the loop
is embedded as a recursion over the remaining suffix of the line list.  A
suffix `[c]` of odd length corresponds to `lines[i+1] === undefined`. -/

/-- `entity.start![0] = v` on the initialized triple (mutating an absent
triple would throw in JS; the decoder always initializes it, so the `none`
branch is unreachable and modelled as a no-op). -/
def setVecX (v : Option Vec3) (n : JsNum) : Option Vec3 :=
  match v with
  | some w => some { w with x := n }
  | none => none

/-- `entity.foo![1] = v`. -/
def setVecY (v : Option Vec3) (n : JsNum) : Option Vec3 :=
  match v with
  | some w => some { w with y := n }
  | none => none

/-- `entity.foo![2] = v`. -/
def setVecZ (v : Option Vec3) (n : JsNum) : Option Vec3 :=
  match v with
  | some w => some { w with z := n }
  | none => none

/-- The entity literal `parseLine` starts from. -/
def lineEntityInit : CadEntity :=
  { type := some "LINE", layer := some "0",
    start := some ⟨JsNum.num 0, JsNum.num 0, JsNum.num 0⟩,
    «end» := some ⟨JsNum.num 0, JsNum.num 0, JsNum.num 0⟩ }

/-- The entity literal `parseInsert` starts from. -/
def insertEntityInit : CadEntity :=
  { type := some "INSERT", layer := some "0", block := some "",
    insertion_point := some ⟨JsNum.num 0, JsNum.num 0, JsNum.num 0⟩,
    scale := some ⟨JsNum.num 1, JsNum.num 1, JsNum.num 1⟩,
    rotation := some (JsNum.num 0) }

/-- The body of `parseLine`'s scanning loop: one `(code, value)` pair. -/
def lineFieldUpdate (e : CadEntity) (code : String) (value : Option String) : CadEntity :=
  if code = "8" then { e with layer := value }
  else if code = "10" then { e with start := setVecX e.start (parseFloatOpt value) }
  else if code = "20" then { e with start := setVecY e.start (parseFloatOpt value) }
  else if code = "30" then { e with start := setVecZ e.start (parseFloatOpt value) }
  else if code = "11" then { e with «end» := setVecX e.«end» (parseFloatOpt value) }
  else if code = "21" then { e with «end» := setVecY e.«end» (parseFloatOpt value) }
  else if code = "31" then { e with «end» := setVecZ e.«end» (parseFloatOpt value) }
  else e

/-- The body of `parseInsert`'s scanning loop: one `(code, value)` pair.
Note that the source has no branch for group code `50` (rotation). -/
def insertFieldUpdate (e : CadEntity) (code : String) (value : Option String) : CadEntity :=
  if code = "2" then { e with block := value }
  else if code = "8" then { e with layer := value }
  else if code = "10" then { e with insertion_point := setVecX e.insertion_point (parseFloatOpt value) }
  else if code = "20" then { e with insertion_point := setVecY e.insertion_point (parseFloatOpt value) }
  else if code = "30" then { e with insertion_point := setVecZ e.insertion_point (parseFloatOpt value) }
  else if code = "41" then { e with scale := setVecX e.scale (parseFloatOpt value) }
  else if code = "42" then { e with scale := setVecY e.scale (parseFloatOpt value) }
  else if code = "43" then { e with scale := setVecZ e.scale (parseFloatOpt value) }
  else e

/-- `parseLine`'s loop (`while (i < lines.length && lines[i] !== '0')`),
over the line suffix starting at `startIndex + 2`. -/
def parseLineLoop : List String → CadEntity → CadEntity
  | [], e => e
  | [c], e => if c = "0" then e else lineFieldUpdate e c none
  | c :: v :: rest, e =>
    if c = "0" then e else parseLineLoop rest (lineFieldUpdate e c (some v))

/-- `parseLine(lines, startIndex)`: build a LINE entity from the body pairs
(the suffix after the `0/LINE` pair).  The source's return type is
nullable but the function always returns an entity. -/
def parseLine (body : List String) : CadEntity := parseLineLoop body lineEntityInit

/-- `parseInsert`'s loop. -/
def parseInsertLoop : List String → CadEntity → CadEntity
  | [], e => e
  | [c], e => if c = "0" then e else insertFieldUpdate e c none
  | c :: v :: rest, e =>
    if c = "0" then e else parseInsertLoop rest (insertFieldUpdate e c (some v))

/-- `parseInsert(lines, startIndex)` over the suffix after `0/INSERT`. -/
def parseInsert (body : List String) : CadEntity := parseInsertLoop body insertEntityInit

/-- The main loop of `parseBasicDxf` over the remaining line suffix, with
the `inEntitiesSection` flag and the entity accumulator.  Each step
consumes one `(code, value)` pair (or four lines on entering the ENTITIES
section); after parsing an entity the loop re-scans its body pairs, which
match no branch — exactly as the index-based source does. -/
def parseBasicDxfLoop : List String → Bool → List CadEntity → List CadEntity
  | [], _, acc => acc
  | [_], _, acc => acc
  | c :: v :: rest, inEnt, acc =>
    if c = "0" ∧ v = "SECTION" ∧ rest.head? = some "2" ∧ rest.tail.head? = some "ENTITIES" then
      match rest with
      | _ :: _ :: rest2 => parseBasicDxfLoop rest2 true acc
      | _ => acc
    else if c = "0" ∧ v = "ENDSEC" ∧ inEnt = true then
      parseBasicDxfLoop rest false acc
    else if inEnt = true ∧ c = "0" ∧ v = "LINE" then
      parseBasicDxfLoop rest inEnt (acc ++ [parseLine rest])
    else if inEnt = true ∧ c = "0" ∧ v = "INSERT" then
      parseBasicDxfLoop rest inEnt (acc ++ [parseInsert rest])
    else
      parseBasicDxfLoop rest inEnt acc

/-- `parseBasicDxf(fileContent)`: split on newlines, trim every line, scan
for the ENTITIES section and collect LINE/INSERT entities.  The impure
`new Date().toISOString()` in the metadata is the explicit `now`
argument. -/
def parseBasicDxf (now : String) (fileContent : String) : CadDocument :=
  let lines := (splitLines fileContent).map jsTrim
  { entities := parseBasicDxfLoop lines false []
    metadata := some { version := some (JsNum.num 1), lastModified := some now } }

/-- `parseDxfToJson(fileContent)`: the `dxf-parser` library is not bundled
(`typeof DxfParser === 'undefined'`), so the function falls through to
`parseBasicDxf`. -/
def parseDxfToJson (now : String) (fileContent : String) : CadDocument :=
  parseBasicDxf now fileContent

/-! ### Interchange encoder (`json-to-dxf.service.ts`)

Every template chunk the source concatenates is a sequence of lines each
followed by `'\n'`, so each piece is `linesToText` of its line list. -/

/-- JS `v || dflt` for a string field: `undefined` and `""` are falsy. -/
def jsOrStr (v : Option String) (dflt : String) : String :=
  match v with
  | some s => if s = "" then dflt else s
  | none => dflt

/-- JS `v || dflt` for a numeric field: `undefined`, `0` and `NaN` are
falsy. -/
def jsOrNum (v : Option JsNum) (dflt : JsNum) : JsNum :=
  match v with
  | some x => if x = JsNum.num 0 ∨ x = JsNum.nan then dflt else x
  | none => dflt

/-- JS `v || dflt` for an array/object field: present arrays and objects
are always truthy. -/
def jsOrVec (v : Option Vec3) (dflt : Vec3) : Vec3 := v.getD dflt

/-- Template interpolation `${x}` of a number. -/
def numStr (x : JsNum) : String := numToString x

/-- The lines of `dxfHeader()`. -/
def dxfHeaderLines : List String :=
  ["0", "SECTION", "2", "HEADER", "9", "$ACADVER", "1", "AC1015",
   "9", "$INSUNITS", "70", "0", "0", "ENDSEC"]

/-- `dxfHeader()`. -/
def dxfHeader : String := linesToText dxfHeaderLines

/-- The insertion-ordered layer set of `dxfTables`: a JS `Set` seeded with
the default layer `"0"`, then `layers.add(entity.layer)` for each entity
with a truthy (present, non-empty) layer. -/
def collectLayers (entities : List CadEntity) : List String :=
  entities.foldl
    (fun acc e =>
      match e.layer with
      | some l => if l ≠ "" ∧ l ∉ acc then acc ++ [l] else acc
      | none => acc)
    ["0"]

/-- The lines of one LAYER record in the TABLES section. -/
def layerRecLines (l : String) : List String :=
  ["0", "LAYER", "2", l, "70", "0", "62", "7", "6", "CONTINUOUS"]

/-- The lines of `dxfTables(document)` for a given layer list. -/
def dxfTablesLines (layers : List String) : List String :=
  ["0", "SECTION", "2", "TABLES", "0", "TABLE", "2", "LAYER", "70", natToString layers.length]
    ++ (layers.map layerRecLines).flatten
    ++ ["0", "ENDTAB", "0", "ENDSEC"]

/-- `dxfTables(document)`. -/
def dxfTables (document : CadDocument) : String :=
  linesToText (dxfTablesLines (collectLayers document.entities))

/-- The lines of `lineToDxf(entity)`. -/
def lineToDxfLines (entity : CadEntity) : List String :=
  let start := jsOrVec entity.start ⟨JsNum.num 0, JsNum.num 0, JsNum.num 0⟩
  let e := jsOrVec entity.«end» ⟨JsNum.num 0, JsNum.num 0, JsNum.num 0⟩
  let layer := jsOrStr entity.layer "0"
  ["0", "LINE", "8", layer,
   "10", numStr start.x, "20", numStr start.y, "30", numStr start.z,
   "11", numStr e.x, "21", numStr e.y, "31", numStr e.z]

/-- `lineToDxf(entity)`. -/
def lineToDxf (entity : CadEntity) : String := linesToText (lineToDxfLines entity)

/-- The lines of `insertToDxf(entity)`. -/
def insertToDxfLines (entity : CadEntity) : List String :=
  let insertionPoint := jsOrVec entity.insertion_point ⟨JsNum.num 0, JsNum.num 0, JsNum.num 0⟩
  let scale := jsOrVec entity.scale ⟨JsNum.num 1, JsNum.num 1, JsNum.num 1⟩
  let rotation := jsOrNum entity.rotation (JsNum.num 0)
  let blockName := jsOrStr entity.block "UNKNOWN"
  let layer := jsOrStr entity.layer "0"
  ["0", "INSERT", "2", blockName, "8", layer,
   "10", numStr insertionPoint.x, "20", numStr insertionPoint.y, "30", numStr insertionPoint.z,
   "41", numStr scale.x, "42", numStr scale.y, "43", numStr scale.z,
   "50", numStr rotation]

/-- `insertToDxf(entity)`. -/
def insertToDxf (entity : CadEntity) : String := linesToText (insertToDxfLines entity)

/-- The lines of `circleToDxf(entity)`. -/
def circleToDxfLines (entity : CadEntity) : List String :=
  let center := jsOrVec entity.center ⟨JsNum.num 0, JsNum.num 0, JsNum.num 0⟩
  let radius := jsOrNum entity.radius (JsNum.num 1)
  let layer := jsOrStr entity.layer "0"
  ["0", "CIRCLE", "8", layer,
   "10", numStr center.x, "20", numStr center.y, "30", numStr center.z,
   "40", numStr radius]

/-- `circleToDxf(entity)`. -/
def circleToDxf (entity : CadEntity) : String := linesToText (circleToDxfLines entity)

/-- `entityToDxf(entity)`: dispatch on the kind tag; `null` (here `none`)
for any other tag — including a missing one. -/
def entityToDxf (entity : CadEntity) : Option String :=
  if entity.type = some "LINE" then some (lineToDxf entity)
  else if entity.type = some "INSERT" then some (insertToDxf entity)
  else if entity.type = some "CIRCLE" then some (circleToDxf entity)
  else none

/-- `dxfEntities(entities)`: the ENTITIES section; unsupported entities
contribute nothing. -/
def dxfEntities (entities : List CadEntity) : String :=
  linesToText ["0", "SECTION", "2", "ENTITIES"]
    ++ String.join (entities.filterMap entityToDxf)
    ++ linesToText ["0", "ENDSEC"]

/-- `jsonToDxf(document)`: header, tables, entities, EOF. -/
def jsonToDxf (document : CadDocument) : String :=
  dxfHeader ++ dxfTables document ++ dxfEntities document.entities ++ linesToText ["0", "EOF"]

/-! ### Script encoder

From the `jsonToScr` reference implementation in
`development_docs/autocad-llm-sync-planning.md` §7.2 (the
`json-to-scr.service.ts` module itself is not part of this snapshot; the
planning document carries its code and is what the spec describes). -/

/-- Template interpolation of a string that may be `undefined`
(JS renders `undefined` as the text `undefined`). -/
def rawStr (v : Option String) : String := v.getD "undefined"

/-- `jsonToScr(document)`: one command line per supported entity.  LINE
needs truthy `start` and `end`; INSERT needs a truthy
`insertion_point`. -/
def jsonToScr (document : CadDocument) : String :=
  String.join (document.entities.filterMap (fun entity =>
    if entity.type = some "LINE" ∧ entity.start.isSome ∧ entity.«end».isSome then
      let s := entity.start.getD ⟨JsNum.num 0, JsNum.num 0, JsNum.num 0⟩
      let e := entity.«end».getD ⟨JsNum.num 0, JsNum.num 0, JsNum.num 0⟩
      some ("_LINE " ++ numStr s.x ++ "," ++ numStr s.y ++ " "
        ++ numStr e.x ++ "," ++ numStr e.y ++ "\n")
    else if entity.type = some "INSERT" ∧ entity.insertion_point.isSome then
      let p := entity.insertion_point.getD ⟨JsNum.num 0, JsNum.num 0, JsNum.num 0⟩
      let sc := jsOrVec entity.scale ⟨JsNum.num 1, JsNum.num 1, JsNum.num 1⟩
      let rotation := jsOrNum entity.rotation (JsNum.num 0)
      some ("_-INSERT \"" ++ rawStr entity.block ++ "\" "
        ++ numStr p.x ++ "," ++ numStr p.y ++ " "
        ++ numStr sc.x ++ " " ++ numStr sc.y ++ " " ++ numStr rotation ++ "\n")
    else none))

/-! ### Well-formed LINE/INSERT documents

The round-trip property needs documents in the normal form the decoder
itself produces (spec §3's invariants plus field-default normalization):
non-empty layer and block names that contain no newline and are unchanged
by `trim()`, coordinates that are finite doubles (exact decimal
fractions), materialized per-kind fields,
`none` elsewhere, and INSERT rotation `0` (which the parser cannot
recover, having no branch for group code 50). -/

/-- A non-empty string the line discipline leaves intact: no newline, and
unchanged by `trim()` (interior whitespace other than a newline is
allowed, exactly as in the program). -/
def cleanStr (s : String) : Prop := s ≠ "" ∧ lineSafe s

instance (s : String) : Decidable (cleanStr s) := by unfold cleanStr; infer_instance

/-- A present, clean string field. -/
def cleanOptStr : Option String → Prop
  | some s => cleanStr s
  | none => False

instance (v : Option String) : Decidable (cleanOptStr v) :=
  match v with
  | some s => inferInstanceAs (Decidable (cleanStr s))
  | none => inferInstanceAs (Decidable False)

/-- A finite number whose denominator divides `10 ^ decFuel`: exactly the
values whose decimal expansion the renderer can write in full.  Every
finite double is of this form (`m / 2^e` with `e ≤ 1074`). -/
def decNum : JsNum → Prop
  | JsNum.nan => False
  | JsNum.num q => 10 ^ decFuel % q.den = 0

instance (x : JsNum) : Decidable (decNum x) :=
  match x with
  | JsNum.nan => inferInstanceAs (Decidable False)
  | JsNum.num q => inferInstanceAs (Decidable (10 ^ decFuel % q.den = 0))

/-- A present triple of renderable finite numbers. -/
def decVec : Option Vec3 → Prop
  | some w => decNum w.x ∧ decNum w.y ∧ decNum w.z
  | none => False

instance (v : Option Vec3) : Decidable (decVec v) :=
  match v with
  | some w => inferInstanceAs (Decidable (decNum w.x ∧ decNum w.y ∧ decNum w.z))
  | none => inferInstanceAs (Decidable False)

/-- The fields no decoder path ever sets are absent. -/
def noExtraFields (e : CadEntity) : Prop :=
  e.vertices = none ∧ e.shape = none ∧ e.text = none ∧ e.position = none
    ∧ e.height = none ∧ e.handle = none ∧ e.ownerHandle = none

instance (e : CadEntity) : Decidable (noExtraFields e) :=
  inferInstanceAs (Decidable (_ ∧ _ ∧ _ ∧ _ ∧ _ ∧ _ ∧ _))

/-- A normal-form LINE entity. -/
def wfLine (e : CadEntity) : Prop :=
  e.type = some "LINE" ∧ cleanOptStr e.layer ∧ decVec e.start ∧ decVec e.«end»
    ∧ e.block = none ∧ e.insertion_point = none ∧ e.scale = none ∧ e.rotation = none
    ∧ e.center = none ∧ e.radius = none ∧ noExtraFields e

instance (e : CadEntity) : Decidable (wfLine e) := by unfold wfLine; infer_instance

/-- A normal-form INSERT entity with the default rotation. -/
def wfInsert (e : CadEntity) : Prop :=
  e.type = some "INSERT" ∧ cleanOptStr e.layer ∧ cleanOptStr e.block
    ∧ decVec e.insertion_point ∧ decVec e.scale ∧ e.rotation = some (JsNum.num 0)
    ∧ e.start = none ∧ e.«end» = none ∧ e.center = none ∧ e.radius = none ∧ noExtraFields e

instance (e : CadEntity) : Decidable (wfInsert e) := by unfold wfInsert; infer_instance

/-- A document of normal-form LINE and INSERT entities. -/
def wellFormedLineInsertDoc (doc : CadDocument) : Prop :=
  ∀ e ∈ doc.entities, wfLine e ∨ wfInsert e

instance (doc : CadDocument) : Decidable (wellFormedLineInsertDoc doc) :=
  inferInstanceAs (Decidable (∀ e ∈ doc.entities, wfLine e ∨ wfInsert e))

/-! ### Concrete inputs used by the counterexamples and witnesses -/

/-- A document with a CIRCLE and a rotated INSERT: the encoder emits both,
but the decoder drops the circle and ignores the rotation. -/
def circleInsertDoc : CadDocument :=
  { entities :=
      [ { type := some "CIRCLE", layer := some "0",
          center := some ⟨JsNum.num 1, JsNum.num 2, JsNum.num 3⟩,
          radius := some (JsNum.num 5) },
        { type := some "INSERT", layer := some "0", block := some "B",
          insertion_point := some ⟨JsNum.num 1, JsNum.num 2, JsNum.num 0⟩,
          scale := some ⟨JsNum.num 1, JsNum.num 1, JsNum.num 1⟩,
          rotation := some (JsNum.num 45) } ] }

/-- A well-formed document with one LINE and one unrotated INSERT. -/
def sampleLineInsertDoc : CadDocument :=
  { entities :=
      [ { type := some "LINE", layer := some "WALLS",
          start := some ⟨JsNum.num 0, JsNum.num 0, JsNum.num 0⟩,
          «end» := some ⟨JsNum.num 10, JsNum.num (mkRat 5 2), JsNum.num 0⟩ },
        { type := some "INSERT", layer := some "FURN", block := some "CHAIR",
          insertion_point := some ⟨JsNum.num 1, JsNum.num 2, JsNum.num 0⟩,
          scale := some ⟨JsNum.num 1, JsNum.num 1, JsNum.num 1⟩,
          rotation := some (JsNum.num 0) } ] }

/-- Scenario B's document: one INSERT of block CHAIR at (1,2,0), unit
scale, rotation 45, layer FURN. -/
def scenarioBDoc : CadDocument :=
  { entities :=
      [ { type := some "INSERT", block := some "CHAIR",
          insertion_point := some ⟨JsNum.num 1, JsNum.num 2, JsNum.num 0⟩,
          scale := some ⟨JsNum.num 1, JsNum.num 1, JsNum.num 1⟩,
          rotation := some (JsNum.num 45), layer := some "FURN" } ] }

/-- Scenario D's document: entities on layers A, A and the default. -/
def scenarioDDoc : CadDocument :=
  { entities :=
      [ { type := some "LINE", layer := some "A",
          start := some ⟨JsNum.num 0, JsNum.num 0, JsNum.num 0⟩,
          «end» := some ⟨JsNum.num 1, JsNum.num 0, JsNum.num 0⟩ },
        { type := some "LINE", layer := some "A",
          start := some ⟨JsNum.num 0, JsNum.num 0, JsNum.num 0⟩,
          «end» := some ⟨JsNum.num 2, JsNum.num 0, JsNum.num 0⟩ },
        { type := some "LINE", layer := some "0",
          start := some ⟨JsNum.num 0, JsNum.num 0, JsNum.num 0⟩,
          «end» := some ⟨JsNum.num 3, JsNum.num 0, JsNum.num 0⟩ } ] }

/-- A TEXT entity on the default layer (unsupported by both encoders). -/
def textEntity : CadEntity :=
  { type := some "TEXT", layer := some "0", text := some "hello",
    position := some ⟨JsNum.num 1, JsNum.num 1, JsNum.num 0⟩ }

/-- An entity with no kind tag at all. -/
def noTagEntity : CadEntity := { layer := some "0" }

/-- Interchange text whose LINE has a malformed value for group code 10. -/
def nanDxfText : String :=
  "0\nSECTION\n2\nENTITIES\n0\nLINE\n10\nabc\n0\nENDSEC\n0\nEOF\n"

/-- Interchange text with a single TEXT entity on layer L. -/
def textDxfText : String :=
  "0\nSECTION\n2\nENTITIES\n0\nTEXT\n8\nL\n1\nhello\n0\nENDSEC\n0\nEOF\n"

/-! ### Auxiliary vocabulary for the claim statements -/

/-- Flatten a list of `(code, value)` pairs into the line stream they
occupy in the ENTITIES section. -/
def pairsToLines (ps : List (String × String)) : List String :=
  ps.foldr (fun p acc => p.1 :: p.2 :: acc) []

/-- The per-entity line list behind `entityToDxf` (whose result is the
corresponding text). -/
def entityToDxfLines (entity : CadEntity) : Option (List String) :=
  if entity.type = some "LINE" then some (lineToDxfLines entity)
  else if entity.type = some "INSERT" then some (insertToDxfLines entity)
  else if entity.type = some "CIRCLE" then some (circleToDxfLines entity)
  else none

/-- Is the entity's kind one the interchange encoder supports? -/
def supportedKind (entity : CadEntity) : Bool :=
  decide (entity.type = some "LINE") || decide (entity.type = some "INSERT")
    || decide (entity.type = some "CIRCLE")

/-- Stated from spec §4.4: the distinct non-default layer names of the
document in first-seen entity order (the layer table is this sequence
with the default layer `"0"` forced first). -/
def specLayerSeq (entities : List CadEntity) : List String :=
  entities.foldl
    (fun acc e =>
      match e.layer with
      | some l => if l = "0" ∨ l ∈ acc then acc else acc ++ [l]
      | none => acc)
    []

/-! ### String and line-list infrastructure -/

theorem data_linesToText (ls : List String) :
    (linesToText ls).data = ls.foldr (fun l acc => l.data ++ '\n' :: acc) [] := by
  induction ls with
  | nil => rfl
  | cons l ls ih => simp [linesToText] at ih ⊢; simp [String.data_append, ih]

theorem linesToText_append (a b : List String) :
    linesToText (a ++ b) = linesToText a ++ linesToText b := by
  apply String.ext
  simp [data_linesToText, String.data_append, List.foldr_append]
  induction a with
  | nil => rfl
  | cons l ls ih => simp [ih]

theorem stringJoin_cons (s : String) (l : List String) :
    String.join (s :: l) = s ++ String.join l := by
  show List.foldl (· ++ ·) s l = s ++ List.foldl (· ++ ·) "" l
  induction l generalizing s with
  | nil => simp
  | cons t l ih =>
    show List.foldl (· ++ ·) (s ++ t) l = s ++ List.foldl (· ++ ·) ("" ++ t) l
    rw [ih (s ++ t), ih ("" ++ t)]
    simp [String.append_assoc]

theorem splitNlChars_ne_nil (cs : List Char) : splitNlChars cs ≠ [] := by
  induction cs with
  | nil => simp [splitNlChars]
  | cons c cs ih =>
    rcases h : splitNlChars cs with _ | ⟨l, ls⟩
    · exact absurd h ih
    · simp only [splitNlChars, h]
      split_ifs <;> simp

theorem splitNlChars_append_nl (cs ds : List Char) (h : '\n' ∉ cs) :
    splitNlChars (cs ++ '\n' :: ds) = cs :: splitNlChars ds := by
  induction cs with
  | nil =>
    simp only [List.nil_append, splitNlChars]
    rcases hs : splitNlChars ds with _ | ⟨l, ls⟩
    · exact absurd hs (splitNlChars_ne_nil ds)
    · simp
  | cons c cs ih =>
    have hc : c ≠ '\n' := fun hc => h (hc ▸ List.mem_cons_self c cs)
    have hcs : '\n' ∉ cs := fun hm => h (List.mem_cons_of_mem c hm)
    have step : splitNlChars ((c :: cs) ++ '\n' :: ds)
        = match splitNlChars (cs ++ '\n' :: ds) with
          | [] => [[]]
          | l :: ls => if c = '\n' then [] :: l :: ls else (c :: l) :: ls := rfl
    rw [step, ih hcs]
    simp [hc]

theorem dropWhile_of_all_not {p : Char → Bool} (cs : List Char)
    (h : ∀ c ∈ cs, p c = false) : cs.dropWhile p = cs := by
  cases cs with
  | nil => rfl
  | cons c cs => simp [List.dropWhile_cons, h c (List.mem_cons_self c cs)]

theorem trimChars_of_clean (cs : List Char) (h : ∀ c ∈ cs, isWs c = false) :
    trimChars cs = cs := by
  unfold trimChars
  rw [dropWhile_of_all_not cs h, dropWhile_of_all_not cs.reverse (by simpa using h),
    List.reverse_reverse]

theorem jsTrim_of_clean (s : String) (h : s.data.all (fun c => !(isWs c)) = true) :
    jsTrim s = s := by
  apply String.ext
  show trimChars s.data = s.data
  refine trimChars_of_clean s.data (fun c hc => ?_)
  have := (List.all_eq_true.mp h) c hc
  simpa using this

theorem lineSafe_of_all_not_ws (s : String)
    (h : s.data.all (fun c => !(isWs c)) = true) : lineSafe s := by
  constructor
  · intro hm
    have := (List.all_eq_true.mp h) _ hm
    simp [isWs] at this
  · exact jsTrim_of_clean s h

theorem splitLines_linesToText (ls : List String)
    (h : ∀ l ∈ ls, lineSafe l) :
    (splitLines (linesToText ls)).map jsTrim = ls ++ [""] := by
  induction ls with
  | nil => rfl
  | cons l ls ih =>
    have hl := h l (List.mem_cons_self l ls)
    have hnl : '\n' ∉ l.data := hl.1
    have hdata : (linesToText (l :: ls)).data = l.data ++ '\n' :: (linesToText ls).data := by
      simp [linesToText, String.data_append]
    unfold splitLines
    rw [hdata, splitNlChars_append_nl _ _ hnl]
    have ihh := ih (fun x hx => h x (List.mem_cons_of_mem l hx))
    unfold splitLines at ihh
    simp only [List.map_cons, List.map_map] at ihh ⊢
    rw [ihh]
    have hmk : jsTrim (String.mk l.data) = l := by
      show jsTrim l = l
      exact hl.2
    simp [hmk]

/-! ### Decimal rendering and parsing round-trip -/

theorem digitVal_digitChar : ∀ n < 10, digitVal (digitChar n) = n := by decide

theorem isDigitChar_digitChar : ∀ n < 10, isDigitChar (digitChar n) = true := by decide

theorem not_isWs_digitChar (n : ℕ) : isWs (digitChar n) = false := by
  unfold digitChar
  split_ifs <;> rfl

theorem natOfDigits_append_digit (ds : List Char) (c : Char) :
    natOfDigits (ds ++ [c]) = natOfDigits ds * 10 + digitVal c := by
  simp [natOfDigits, List.foldl_append]

theorem foldl_digits_shift (l : List Char) (a : ℕ) :
    l.foldl (fun x c => x * 10 + digitVal c) a = a * 10 ^ l.length + natOfDigits l := by
  induction l generalizing a with
  | nil => simp [natOfDigits]
  | cons c t ih =>
    show t.foldl _ (a * 10 + digitVal c) = _
    rw [ih (a * 10 + digitVal c)]
    have hc : natOfDigits (c :: t) = digitVal c * 10 ^ t.length + natOfDigits t := by
      show t.foldl _ (0 * 10 + digitVal c) = _
      rw [ih (0 * 10 + digitVal c)]
      ring
    rw [hc]
    simp [List.length_cons, pow_succ]
    ring

theorem natOfDigits_cons (c : Char) (t : List Char) :
    natOfDigits (c :: t) = digitVal c * 10 ^ t.length + natOfDigits t := by
  show t.foldl _ (0 * 10 + digitVal c) = _
  rw [foldl_digits_shift]
  ring

theorem natToDigitsAux_val : ∀ fuel n, n < 10 ^ fuel →
    natOfDigits (natToDigitsAux fuel n) = n := by
  intro fuel
  induction fuel with
  | zero => intro n hn; interval_cases n; rfl
  | succ fuel ih =>
    intro n hn
    by_cases h10 : n < 10
    · simp only [natToDigitsAux, if_pos h10]
      show natOfDigits [digitChar n] = n
      simp [natOfDigits, digitVal_digitChar n h10]
    · simp only [natToDigitsAux, if_neg h10]
      rw [natOfDigits_append_digit]
      have hdiv : n / 10 < 10 ^ fuel := by
        rw [Nat.div_lt_iff_lt_mul (by norm_num)]
        calc n < 10 ^ (fuel + 1) := hn
        _ = 10 ^ fuel * 10 := by rw [pow_succ]
      rw [ih (n / 10) hdiv, digitVal_digitChar (n % 10) (Nat.mod_lt n (by norm_num))]
      omega

theorem natToDigitsAux_digits : ∀ fuel n c, c ∈ natToDigitsAux fuel n →
    ∃ d, d < 10 ∧ c = digitChar d := by
  intro fuel
  induction fuel with
  | zero => intro n c hc; simp [natToDigitsAux] at hc
  | succ fuel ih =>
    intro n c hc
    by_cases h10 : n < 10
    · simp only [natToDigitsAux, if_pos h10, List.mem_singleton] at hc
      exact ⟨n, h10, hc⟩
    · simp only [natToDigitsAux, if_neg h10, List.mem_append, List.mem_singleton] at hc
      rcases hc with hc | hc
      · exact ih _ _ hc
      · exact ⟨n % 10, Nat.mod_lt n (by norm_num), hc⟩

theorem natToDigitsAux_ne_nil (fuel n : ℕ) : natToDigitsAux (fuel + 1) n ≠ [] := by
  simp only [natToDigitsAux]
  split_ifs <;> simp

theorem natOfDigits_natToString (n : ℕ) : natOfDigits (natToDigitsAux (n + 1) n) = n :=
  natToDigitsAux_val (n + 1) n (lt_of_lt_of_le (Nat.lt_pow_self (by norm_num) n)
    (Nat.pow_le_pow_right (by norm_num) (Nat.le_succ n)))

theorem fracDigits_val : ∀ fuel n d, 0 < d → n < d → d ∣ n * 10 ^ fuel →
    natOfDigits (fracDigits fuel n d) * d = n * 10 ^ (fracDigits fuel n d).length := by
  intro fuel
  induction fuel with
  | zero =>
    intro n d hd hnd hdvd
    simp only [pow_zero, mul_one] at hdvd
    have hz : n = 0 := Nat.eq_zero_of_dvd_of_lt hdvd hnd
    subst hz
    simp [fracDigits, natOfDigits]
  | succ fuel ih =>
    intro n d hd hnd hdvd
    by_cases hn : n = 0
    · subst hn; simp [fracDigits, natOfDigits]
    · simp only [fracDigits, if_neg hn]
      have hlt : n * 10 % d < d := Nat.mod_lt _ hd
      have hdvd2 : d ∣ (n * 10 % d) * 10 ^ fuel := by
        have h2 : d ∣ n * 10 * 10 ^ fuel := by
          rw [show n * 10 * 10 ^ fuel = n * 10 ^ (fuel + 1) by ring]
          exact hdvd
        have h3 : d ∣ d * (n * 10 / d) * 10 ^ fuel := ⟨n * 10 / d * 10 ^ fuel, by ring⟩
        have hmod : n * 10 % d = n * 10 - d * (n * 10 / d) := by
          have := Nat.div_add_mod (n * 10) d; omega
        rw [hmod, Nat.sub_mul]
        exact Nat.dvd_sub' h2 h3
      have ihv := ih (n * 10 % d) d hd hlt hdvd2
      have hdig : digitVal (digitChar (n * 10 / d)) = n * 10 / d := by
        apply digitVal_digitChar
        rw [Nat.div_lt_iff_lt_mul hd]
        omega
      rw [natOfDigits_cons, hdig, List.length_cons]
      have hfin : d * (n * 10 / d) + n * 10 % d = n * 10 := Nat.div_add_mod (n * 10) d
      calc (n * 10 / d * 10 ^ (fracDigits fuel (n * 10 % d) d).length
              + natOfDigits (fracDigits fuel (n * 10 % d) d)) * d
          = d * (n * 10 / d) * 10 ^ (fracDigits fuel (n * 10 % d) d).length
              + natOfDigits (fracDigits fuel (n * 10 % d) d) * d := by ring
        _ = d * (n * 10 / d) * 10 ^ (fracDigits fuel (n * 10 % d) d).length
              + n * 10 % d * 10 ^ (fracDigits fuel (n * 10 % d) d).length := by rw [ihv]
        _ = (d * (n * 10 / d) + n * 10 % d) * 10 ^ (fracDigits fuel (n * 10 % d) d).length := by
              ring
        _ = n * 10 * 10 ^ (fracDigits fuel (n * 10 % d) d).length := by rw [hfin]
        _ = n * 10 ^ ((fracDigits fuel (n * 10 % d) d).length + 1) := by ring

theorem fracDigits_digits : ∀ fuel n d c, c ∈ fracDigits fuel n d →
    ∃ m, c = digitChar m := by
  intro fuel
  induction fuel with
  | zero => intro n d c hc; simp [fracDigits] at hc
  | succ fuel ih =>
    intro n d c hc
    by_cases hn : n = 0
    · subst hn; simp [fracDigits] at hc
    · simp only [fracDigits, if_neg hn, List.mem_cons] at hc
      rcases hc with hc | hc
      · exact ⟨n * 10 / d, hc⟩
      · exact ih _ _ _ hc

theorem fracDigits_digits_lt : ∀ fuel n d, 0 < d → n < d → ∀ c ∈ fracDigits fuel n d,
    ∃ m, m < 10 ∧ c = digitChar m := by
  intro fuel
  induction fuel with
  | zero => intro n d _ _ c hc; simp [fracDigits] at hc
  | succ fuel ih =>
    intro n d hd hnd c hc
    by_cases hn : n = 0
    · subst hn; simp [fracDigits] at hc
    · simp only [fracDigits, if_neg hn, List.mem_cons] at hc
      rcases hc with hc | hc
      · refine ⟨n * 10 / d, ?_, hc⟩
        rw [Nat.div_lt_iff_lt_mul hd]
        omega
      · exact ih _ _ hd (Nat.mod_lt _ hd) c hc

theorem isDigitChar_not_sign : ∀ m < 10, digitChar m ≠ '-' ∧ digitChar m ≠ '+' := by decide

theorem spanDigits_append (ds rest : List Char)
    (hd : ∀ c ∈ ds, isDigitChar c = true)
    (hr : ∀ c, rest.head? = some c → isDigitChar c = false) :
    spanDigits (ds ++ rest) = (ds, rest) := by
  induction ds with
  | nil =>
    cases rest with
    | nil => rfl
    | cons c t => simp [spanDigits, hr c rfl]
  | cons c ds ih =>
    have hc := hd c (List.mem_cons_self c ds)
    simp only [List.cons_append, spanDigits, hc, if_true]
    rw [show ds.append rest = ds ++ rest from rfl,
      ih (fun x hx => hd x (List.mem_cons_of_mem c hx))]

theorem splitSign_not_sign (c : Char) (t : List Char) (h1 : c ≠ '-') (h2 : c ≠ '+') :
    splitSign (c :: t) = (false, c :: t) := by
  simp [splitSign, h1, h2]

theorem dropWhile_isWs_cons (c : Char) (t : List Char) (h : isWs c = false) :
    (c :: t).dropWhile isWs = c :: t := by
  simp [List.dropWhile_cons, h]

theorem parseFrac_dot (frac : List Char) (hf : ∀ c ∈ frac, isDigitChar c = true) :
    parseFrac ('.' :: frac) = (frac, []) := by
  have hspan : spanDigits (frac ++ []) = (frac, []) :=
    spanDigits_append frac [] hf (fun c hc => by cases hc)
  rw [List.append_nil] at hspan
  simp [parseFrac, hspan]

/-- Evaluate `parseFloatChars` on an input whose sign-stripped remainder is
an integer digit run followed by an optional fraction. -/
theorem parseFloatChars_pieces (cs : List Char) (neg : Bool) (intDs frac : List Char)
    (hi : ∀ c ∈ intDs, isDigitChar c = true)
    (hine : intDs ≠ [])
    (hf : ∀ c ∈ frac, isDigitChar c = true)
    (hsg : splitSign (cs.dropWhile isWs)
      = (neg, intDs ++ (if frac.isEmpty then [] else '.' :: frac))) :
    parseFloatChars cs = JsNum.num
      (if neg then
        Rat.neg (mkRat (Int.ofNat (natOfDigits intDs * 10 ^ frac.length + natOfDigits frac))
          (10 ^ frac.length))
       else
        mkRat (Int.ofNat (natOfDigits intDs * 10 ^ frac.length + natOfDigits frac))
          (10 ^ frac.length)) := by
  have htail : ∀ c, (if frac.isEmpty then ([] : List Char) else '.' :: frac).head? = some c →
      isDigitChar c = false := by
    intro c hc
    by_cases hemp : frac.isEmpty
    · simp [hemp] at hc
    · simp only [if_neg hemp, List.head?_cons, Option.some.injEq] at hc
      subst hc; decide
  have hspan := spanDigits_append intDs _ hi htail
  have hfp : parseFrac (if frac.isEmpty then ([] : List Char) else '.' :: frac) = (frac, []) := by
    by_cases hemp : frac.isEmpty
    · have : frac = [] := List.isEmpty_iff.mp hemp
      subst this
      simp [parseFrac]
    · simp only [if_neg hemp]
      exact parseFrac_dot frac hf
  have hie : intDs.isEmpty = false := by
    cases intDs with
    | nil => exact absurd rfl hine
    | cons c t => rfl
  simp only [parseFloatChars, hsg, hspan, hfp, hie, List.isEmpty_nil, Bool.false_and,
    Bool.if_false_left, parseExpo]
  norm_num

/-- The decimal renderer and `parseFloat` are mutually inverse on every
finite number whose denominator divides `10 ^ decFuel` (in particular on
every finite double). -/
theorem parseFloat_numToString (q : ℚ) (h : 10 ^ decFuel % q.den = 0) :
    parseFloat (numToString (JsNum.num q)) = JsNum.num q := by
  have hd : 0 < q.den := q.den_pos
  have hdvd : q.den ∣ 10 ^ decFuel := Nat.dvd_of_mod_eq_zero h
  set n := q.num.natAbs with hn
  set d := q.den with hdn
  set intDs := natToDigitsAux (n / d + 1) (n / d) with hids
  set frac := fracDigits decFuel (n % d) d with hfr
  have hi : ∀ c ∈ intDs, isDigitChar c = true := by
    intro c hc
    obtain ⟨m, hm10, rfl⟩ := natToDigitsAux_digits _ _ c hc
    exact isDigitChar_digitChar m hm10
  have hine : intDs ≠ [] := natToDigitsAux_ne_nil _ _
  have hf : ∀ c ∈ frac, isDigitChar c = true := by
    intro c hc
    obtain ⟨m, hm10, rfl⟩ := fracDigits_digits_lt _ _ _ hd (Nat.mod_lt _ hd) c hc
    exact isDigitChar_digitChar m hm10
  have hIval : natOfDigits intDs = n / d := natOfDigits_natToString (n / d)
  have hFval : natOfDigits frac * d = n % d * 10 ^ frac.length :=
    fracDigits_val decFuel (n % d) d hd (Nat.mod_lt _ hd) (Dvd.dvd.mul_left hdvd (n % d))
  have hIdent : (natOfDigits intDs * 10 ^ frac.length + natOfDigits frac) * d
      = n * 10 ^ frac.length := by
    rw [hIval]
    have hdm : d * (n / d) + n % d = n := Nat.div_add_mod n d
    calc (n / d * 10 ^ frac.length + natOfDigits frac) * d
        = d * (n / d) * 10 ^ frac.length + natOfDigits frac * d := by ring
      _ = d * (n / d) * 10 ^ frac.length + n % d * 10 ^ frac.length := by rw [hFval]
      _ = (d * (n / d) + n % d) * 10 ^ frac.length := by ring
      _ = n * 10 ^ frac.length := by rw [hdm]
  have h10L : ((10 ^ frac.length : ℕ) : ℚ) ≠ 0 := by positivity
  have hdQ : ((d : ℕ) : ℚ) ≠ 0 := by
    exact_mod_cast hd.ne.symm
  have hVal : (mkRat (Int.ofNat (natOfDigits intDs * 10 ^ frac.length + natOfDigits frac))
      (10 ^ frac.length) : ℚ) = ((n : ℚ) / (d : ℚ)) := by
    rw [Rat.mkRat_eq_div]
    rw [div_eq_div_iff (by exact_mod_cast h10L) hdQ]
    rw [show Int.ofNat (natOfDigits intDs * 10 ^ frac.length + natOfDigits frac)
      = ((natOfDigits intDs * 10 ^ frac.length + natOfDigits frac : ℕ) : ℤ) from rfl]
    push_cast
    exact_mod_cast hIdent
  have hdata0 : (numToString (JsNum.num q)).data
      = (if q.num < 0 then ['-'] else []) ++ intDs
        ++ (if frac.isEmpty then [] else '.' :: frac) := by
    show ((if q.num < 0 then "-" else "") ++ natToString (n / d)
        ++ (if frac.isEmpty then "" else "." ++ String.mk frac)).data = _
    by_cases hneg : q.num < 0 <;> by_cases hemp : frac.isEmpty <;>
      simp [hneg, hemp, String.data_append, natToString]
  have hc0 : ∃ c0 rest0, intDs = c0 :: rest0 := by
    cases hx : intDs with
    | nil => exact absurd hx hine
    | cons c0 rest0 => exact ⟨c0, rest0, rfl⟩
  obtain ⟨c0, rest0, hsplit⟩ := hc0
  have hc0digit : isDigitChar c0 = true := hi c0 (by rw [hsplit]; exact List.mem_cons_self _ _)
  have hc0m : ∃ m, m < 10 ∧ c0 = digitChar m := by
    have := natToDigitsAux_digits (n / d + 1) (n / d) c0
      (by rw [← hids, hsplit]; exact List.mem_cons_self _ _)
    exact this
  obtain ⟨m0, hm010, hc0eq⟩ := hc0m
  have hc0ws : isWs c0 = false := by rw [hc0eq]; exact not_isWs_digitChar m0
  have hc0s1 : c0 ≠ '-' := by rw [hc0eq]; exact (isDigitChar_not_sign m0 hm010).1
  have hc0s2 : c0 ≠ '+' := by rw [hc0eq]; exact (isDigitChar_not_sign m0 hm010).2
  by_cases hneg : q.num < 0
  · have hdata : (numToString (JsNum.num q)).data
        = '-' :: (intDs ++ (if frac.isEmpty then [] else '.' :: frac)) := by
      rw [hdata0, if_pos hneg]; rfl
    have hsg : splitSign ((numToString (JsNum.num q)).data.dropWhile isWs)
        = (true, intDs ++ (if frac.isEmpty then [] else '.' :: frac)) := by
      rw [hdata]
      rw [dropWhile_isWs_cons '-' _ (by decide)]
      simp [splitSign]
    have := parseFloatChars_pieces _ true intDs frac hi hine hf hsg
    show parseFloatChars (numToString (JsNum.num q)).data = JsNum.num q
    rw [this, if_pos rfl]
    congr 1
    rw [show ∀ v : ℚ, Rat.neg v = -v from fun _ => rfl, hVal]
    have hnQ : ((n : ℕ) : ℚ) = -((q.num : ℤ) : ℚ) := by
      rw [hn, Int.cast_natAbs]
      exact_mod_cast abs_of_neg hneg
    rw [hnQ, hdn]
    rw [neg_div, neg_neg, Rat.num_div_den]
  · have hdata : (numToString (JsNum.num q)).data
        = (c0 :: rest0) ++ (if frac.isEmpty then [] else '.' :: frac) := by
      rw [hdata0, if_neg hneg, hsplit]; rfl
    have hsg : splitSign ((numToString (JsNum.num q)).data.dropWhile isWs)
        = (false, intDs ++ (if frac.isEmpty then [] else '.' :: frac)) := by
      rw [hdata]
      rw [List.cons_append, dropWhile_isWs_cons c0 _ hc0ws]
      rw [splitSign_not_sign c0 _ hc0s1 hc0s2, hsplit]
      rfl
    have := parseFloatChars_pieces _ false intDs frac hi hine hf hsg
    show parseFloatChars (numToString (JsNum.num q)).data = JsNum.num q
    rw [this, if_neg (by simp)]
    congr 1
    rw [hVal]
    have hnQ : ((n : ℕ) : ℚ) = ((q.num : ℤ) : ℚ) := by
      rw [hn, Int.cast_natAbs]
      exact_mod_cast abs_of_nonneg (not_lt.mp hneg)
    rw [hnQ, hdn, Rat.num_div_den]

/-- `parseFloat` recovers any renderable finite number from its rendered
text. -/
theorem parseFloat_numStr (x : JsNum) (h : decNum x) : parseFloat (numStr x) = x := by
  cases x with
  | nan => cases h
  | num q => exact parseFloat_numToString q h

theorem natToString_clean (n : ℕ) : lineSafe (natToString n) := by
  refine lineSafe_of_all_not_ws _ ?_
  rw [List.all_eq_true]
  intro c hc
  obtain ⟨m, _, rfl⟩ := natToDigitsAux_digits _ _ c hc
  simp [not_isWs_digitChar]

theorem numStr_clean (x : JsNum) : lineSafe (numStr x) := by
  refine lineSafe_of_all_not_ws _ ?_
  cases x with
  | nan => decide
  | num q =>
    show ((if q.num < 0 then "-" else "") ++ natToString (q.num.natAbs / q.den)
        ++ (if (fracDigits decFuel (q.num.natAbs % q.den) q.den).isEmpty then ""
            else "." ++ String.mk (fracDigits decFuel (q.num.natAbs % q.den) q.den))).data.all
        (fun c => !(isWs c)) = true
    rw [List.all_eq_true]
    intro c hc
    simp only [String.data_append, List.mem_append] at hc
    rcases hc with (hc | hc) | hc
    · by_cases hneg : q.num < 0
      · simp [hneg] at hc
        simp [hc, isWs]
      · simp [hneg] at hc
    · have hnum : (natToString (q.num.natAbs / q.den)).data.all (fun c => !(isWs c)) = true := by
        rw [List.all_eq_true]
        intro c2 hc2
        obtain ⟨m, _, rfl⟩ := natToDigitsAux_digits _ _ c2 hc2
        simp [not_isWs_digitChar]
      have := List.all_eq_true.mp hnum c hc
      simpa using this
    · by_cases hemp : (fracDigits decFuel (q.num.natAbs % q.den) q.den).isEmpty
      · simp [hemp] at hc
      · simp only [if_neg hemp, String.data_append, List.mem_append] at hc
        rcases hc with hc | hc
        · simp at hc; simp [hc, isWs]
        · obtain ⟨m, rfl⟩ := fracDigits_digits _ _ _ c hc
          simp [not_isWs_digitChar]

/-! ### Stepping lemmas for the decoder's main loop -/

theorem loop_nil (b : Bool) (acc : List CadEntity) :
    parseBasicDxfLoop [] b acc = acc := rfl

theorem loop_single (x : String) (b : Bool) (acc : List CadEntity) :
    parseBasicDxfLoop [x] b acc = acc := rfl

theorem loop_cons_eq (c v : String) (rest : List String) (b : Bool) (acc : List CadEntity) :
    parseBasicDxfLoop (c :: v :: rest) b acc =
      if c = "0" ∧ v = "SECTION" ∧ rest.head? = some "2" ∧ rest.tail.head? = some "ENTITIES" then
        (match rest with
         | _ :: _ :: rest2 => parseBasicDxfLoop rest2 true acc
         | _ => acc)
      else if c = "0" ∧ v = "ENDSEC" ∧ b = true then parseBasicDxfLoop rest false acc
      else if b = true ∧ c = "0" ∧ v = "LINE" then
        parseBasicDxfLoop rest b (acc ++ [parseLine rest])
      else if b = true ∧ c = "0" ∧ v = "INSERT" then
        parseBasicDxfLoop rest b (acc ++ [parseInsert rest])
      else parseBasicDxfLoop rest b acc := by
  rw [parseBasicDxfLoop.eq_def]

theorem loop_skip_pair (c v : String) (rest : List String) (b : Bool) (acc : List CadEntity)
    (h : c ≠ "0") :
    parseBasicDxfLoop (c :: v :: rest) b acc = parseBasicDxfLoop rest b acc := by
  rw [loop_cons_eq,
    if_neg (by simp [h]), if_neg (by simp [h]), if_neg (by simp [h]), if_neg (by simp [h])]

theorem loop_zero_skip_outside (v : String) (rest : List String) (acc : List CadEntity)
    (hv : v ≠ "SECTION") :
    parseBasicDxfLoop ("0" :: v :: rest) false acc = parseBasicDxfLoop rest false acc := by
  rw [loop_cons_eq,
    if_neg (by simp [hv]), if_neg (by simp), if_neg (by simp), if_neg (by simp)]

theorem loop_section_other_outside (x : String) (rest : List String) (acc : List CadEntity)
    (hx : x ≠ "ENTITIES") :
    parseBasicDxfLoop ("0" :: "SECTION" :: "2" :: x :: rest) false acc
      = parseBasicDxfLoop ("2" :: x :: rest) false acc := by
  rw [loop_cons_eq,
    if_neg (by simp [hx]), if_neg (by simp), if_neg (by simp), if_neg (by simp)]

theorem loop_enter_entities (rest : List String) (b : Bool) (acc : List CadEntity) :
    parseBasicDxfLoop ("0" :: "SECTION" :: "2" :: "ENTITIES" :: rest) b acc
      = parseBasicDxfLoop rest true acc := by
  rw [loop_cons_eq, if_pos ⟨rfl, rfl, rfl, rfl⟩]

theorem loop_endsec_inside (rest : List String) (acc : List CadEntity) :
    parseBasicDxfLoop ("0" :: "ENDSEC" :: rest) true acc
      = parseBasicDxfLoop rest false acc := by
  rw [loop_cons_eq, if_neg (by simp), if_pos ⟨rfl, rfl, rfl⟩]

theorem loop_line_inside (rest : List String) (acc : List CadEntity) :
    parseBasicDxfLoop ("0" :: "LINE" :: rest) true acc
      = parseBasicDxfLoop rest true (acc ++ [parseLine rest]) := by
  rw [loop_cons_eq, if_neg (by simp), if_neg (by simp), if_pos ⟨rfl, rfl, rfl⟩]

theorem loop_insert_inside (rest : List String) (acc : List CadEntity) :
    parseBasicDxfLoop ("0" :: "INSERT" :: rest) true acc
      = parseBasicDxfLoop rest true (acc ++ [parseInsert rest]) := by
  rw [loop_cons_eq, if_neg (by simp), if_neg (by simp), if_neg (by simp),
    if_pos ⟨rfl, rfl, rfl⟩]

theorem loop_unknown_inside (v : String) (rest : List String) (acc : List CadEntity)
    (h1 : v ≠ "SECTION") (h2 : v ≠ "ENDSEC") (h3 : v ≠ "LINE") (h4 : v ≠ "INSERT") :
    parseBasicDxfLoop ("0" :: v :: rest) true acc = parseBasicDxfLoop rest true acc := by
  rw [loop_cons_eq, if_neg (by simp [h1]), if_neg (by simp [h2]), if_neg (by simp [h3]),
    if_neg (by simp [h4])]

/-! ### Evaluating the per-entity scanners on record bodies -/

theorem parseLineLoop_stop (rest : List String) (e : CadEntity)
    (h : rest.head? = some "0") : parseLineLoop rest e = e := by
  cases rest with
  | nil => cases h
  | cons c t =>
    obtain rfl : c = "0" := by simpa using h
    cases t <;> simp [parseLineLoop]

theorem parseLineLoop_step (c v : String) (rest : List String) (e : CadEntity) (h : c ≠ "0") :
    parseLineLoop (c :: v :: rest) e = parseLineLoop rest (lineFieldUpdate e c (some v)) := by
  simp [parseLineLoop, h]

theorem parseInsertLoop_stop (rest : List String) (e : CadEntity)
    (h : rest.head? = some "0") : parseInsertLoop rest e = e := by
  cases rest with
  | nil => cases h
  | cons c t =>
    obtain rfl : c = "0" := by simpa using h
    cases t <;> simp [parseInsertLoop]

theorem parseInsertLoop_step (c v : String) (rest : List String) (e : CadEntity) (h : c ≠ "0") :
    parseInsertLoop (c :: v :: rest) e = parseInsertLoop rest (insertFieldUpdate e c (some v)) := by
  simp [parseInsertLoop, h]

/-- Scanning a full LINE record body stops at the next `0` code and yields
the entity with both points parsed. -/
theorem parseLine_record (lay sx sy sz ex ey ez : String) (rest : List String)
    (h : rest.head? = some "0") :
    parseLine ("8" :: lay :: "10" :: sx :: "20" :: sy :: "30" :: sz
        :: "11" :: ex :: "21" :: ey :: "31" :: ez :: rest)
      = { type := some "LINE", layer := some lay,
          start := some ⟨parseFloat sx, parseFloat sy, parseFloat sz⟩,
          «end» := some ⟨parseFloat ex, parseFloat ey, parseFloat ez⟩ } := by
  show parseLineLoop _ lineEntityInit = _
  rw [parseLineLoop_step _ _ _ _ (by decide), parseLineLoop_step _ _ _ _ (by decide),
    parseLineLoop_step _ _ _ _ (by decide), parseLineLoop_step _ _ _ _ (by decide),
    parseLineLoop_step _ _ _ _ (by decide), parseLineLoop_step _ _ _ _ (by decide),
    parseLineLoop_step _ _ _ _ (by decide), parseLineLoop_stop _ _ h]
  rfl

/-- Scanning a full INSERT record body: group code 50 matches no branch of
`insertFieldUpdate`, so the rotation field keeps its initial value `0`. -/
theorem parseInsert_record (blk lay px py pz sx sy sz rot : String) (rest : List String)
    (h : rest.head? = some "0") :
    parseInsert ("2" :: blk :: "8" :: lay :: "10" :: px :: "20" :: py :: "30" :: pz
        :: "41" :: sx :: "42" :: sy :: "43" :: sz :: "50" :: rot :: rest)
      = { type := some "INSERT", layer := some lay, block := some blk,
          insertion_point := some ⟨parseFloat px, parseFloat py, parseFloat pz⟩,
          scale := some ⟨parseFloat sx, parseFloat sy, parseFloat sz⟩,
          rotation := some (JsNum.num 0) } := by
  show parseInsertLoop _ insertEntityInit = _
  rw [parseInsertLoop_step _ _ _ _ (by decide), parseInsertLoop_step _ _ _ _ (by decide),
    parseInsertLoop_step _ _ _ _ (by decide), parseInsertLoop_step _ _ _ _ (by decide),
    parseInsertLoop_step _ _ _ _ (by decide), parseInsertLoop_step _ _ _ _ (by decide),
    parseInsertLoop_step _ _ _ _ (by decide), parseInsertLoop_step _ _ _ _ (by decide),
    parseInsertLoop_step _ _ _ _ (by decide), parseInsertLoop_stop _ _ h]
  rfl

/-! ### The encoder's output as a line list -/

theorem entityToDxf_eq_lines (e : CadEntity) :
    entityToDxf e = (entityToDxfLines e).map linesToText := by
  unfold entityToDxf entityToDxfLines
  split_ifs <;> rfl

theorem filterMap_entityToDxf (es : List CadEntity) :
    es.filterMap entityToDxf = (es.filterMap entityToDxfLines).map linesToText := by
  induction es with
  | nil => rfl
  | cons e es ih =>
    rw [List.filterMap_cons, List.filterMap_cons, entityToDxf_eq_lines]
    cases h : entityToDxfLines e with
    | none => simpa [h] using ih
    | some ls => simp [h, ih]

theorem join_map_linesToText (lls : List (List String)) :
    String.join (lls.map linesToText) = linesToText lls.flatten := by
  induction lls with
  | nil => rfl
  | cons l ls ih => rw [List.map_cons, stringJoin_cons, ih, List.flatten_cons, linesToText_append]

theorem dxfEntities_lines (es : List CadEntity) :
    dxfEntities es = linesToText (["0", "SECTION", "2", "ENTITIES"]
      ++ (es.filterMap entityToDxfLines).flatten ++ ["0", "ENDSEC"]) := by
  unfold dxfEntities
  rw [filterMap_entityToDxf, join_map_linesToText]
  simp only [linesToText_append]

theorem jsonToDxf_lines (doc : CadDocument) :
    jsonToDxf doc = linesToText (dxfHeaderLines
      ++ dxfTablesLines (collectLayers doc.entities)
      ++ (["0", "SECTION", "2", "ENTITIES"]
          ++ (doc.entities.filterMap entityToDxfLines).flatten ++ ["0", "ENDSEC"])
      ++ ["0", "EOF"]) := by
  unfold jsonToDxf dxfHeader dxfTables
  rw [dxfEntities_lines]
  simp only [linesToText_append]

/-! ### Cleanliness of every emitted line -/

theorem collectLayers_mem_aux (es : List CadEntity) :
    ∀ acc l, l ∈ es.foldl
      (fun acc e =>
        match e.layer with
        | some s => if s ≠ "" ∧ s ∉ acc then acc ++ [s] else acc
        | none => acc) acc →
      l ∈ acc ∨ ∃ e ∈ es, e.layer = some l := by
  induction es with
  | nil => intro acc l hl; exact Or.inl hl
  | cons e es ih =>
    intro acc l hl
    rw [List.foldl_cons] at hl
    rcases hlay : e.layer with _ | s
    · simp only [hlay] at hl
      rcases ih _ l hl with hm | ⟨e', he', hl'⟩
      · exact Or.inl hm
      · exact Or.inr ⟨e', List.mem_cons_of_mem e he', hl'⟩
    · simp only [hlay] at hl
      by_cases hcond : s ≠ "" ∧ s ∉ acc
      · rw [if_pos hcond] at hl
        rcases ih _ l hl with hm | ⟨e', he', hl'⟩
        · rcases List.mem_append.mp hm with hm | hm
          · exact Or.inl hm
          · right
            refine ⟨e, List.mem_cons_self e es, ?_⟩
            rw [hlay]
            have : l = s := by simpa using hm
            rw [this]
        · exact Or.inr ⟨e', List.mem_cons_of_mem e he', hl'⟩
      · rw [if_neg hcond] at hl
        rcases ih _ l hl with hm | ⟨e', he', hl'⟩
        · exact Or.inl hm
        · exact Or.inr ⟨e', List.mem_cons_of_mem e he', hl'⟩

theorem collectLayers_mem (es : List CadEntity) (l : String) (h : l ∈ collectLayers es) :
    l = "0" ∨ ∃ e ∈ es, e.layer = some l := by
  rcases collectLayers_mem_aux es ["0"] l h with hm | hm
  · left; simpa using hm
  · exact Or.inr hm

theorem cleanOptStr_jsOrStr (v : Option String) (d : String) (h : cleanOptStr v) :
    ∃ s, v = some s ∧ jsOrStr v d = s ∧ cleanStr s := by
  cases v with
  | none => cases h
  | some s =>
    refine ⟨s, rfl, ?_, h⟩
    have hne : s ≠ "" := h.1
    simp [jsOrStr, hne]

theorem clean_of_cleanStr (s : String) (h : cleanStr s) : lineSafe s := h.2

theorem recordLines_head (e : CadEntity) (L : List String)
    (h : entityToDxfLines e = some L) : L.head? = some "0" := by
  unfold entityToDxfLines at h
  split_ifs at h
  all_goals (have hx := Option.some.inj h; subst hx; rfl)

theorem recordLines_clean (e : CadEntity) (hwf : wfLine e ∨ wfInsert e)
    (L : List String) (hL : entityToDxfLines e = some L) :
    ∀ l ∈ L, lineSafe l := by
  intro l hl
  rcases hwf with hw | hw
  · have htype := hw.1
    have hLval : L = lineToDxfLines e := by
      unfold entityToDxfLines at hL
      rw [if_pos htype] at hL
      exact (Option.some.inj hL).symm
    subst hLval
    obtain ⟨s, hs, hjs, hcl⟩ := cleanOptStr_jsOrStr e.layer "0" hw.2.1
    simp only [lineToDxfLines, hjs, List.mem_cons, List.not_mem_nil, or_false] at hl
    rcases hl with rfl | rfl | rfl | rfl | rfl | rfl | rfl | rfl | rfl | rfl | rfl | rfl
      | rfl | rfl | rfl | rfl <;>
      first
        | decide
        | exact hcl.2
        | exact numStr_clean _
  · have htype := hw.1
    have hLval : L = insertToDxfLines e := by
      unfold entityToDxfLines at hL
      rw [if_neg (by simp [htype]), if_pos htype] at hL
      exact (Option.some.inj hL).symm
    subst hLval
    obtain ⟨s, hs, hjs, hcl⟩ := cleanOptStr_jsOrStr e.layer "0" hw.2.1
    obtain ⟨b, hb, hjb, hclb⟩ := cleanOptStr_jsOrStr e.block "UNKNOWN" hw.2.2.1
    simp only [insertToDxfLines, hjs, hjb, List.mem_cons, List.not_mem_nil, or_false] at hl
    rcases hl with rfl | rfl | rfl | rfl | rfl | rfl | rfl | rfl | rfl | rfl | rfl | rfl
      | rfl | rfl | rfl | rfl | rfl | rfl | rfl | rfl <;>
      first
        | decide
        | exact hcl.2
        | exact hclb.2
        | exact numStr_clean _

/-! ### Walking the loop over the encoder's sections -/

theorem loop_layerRecs (ls : List String) (rest : List String) (acc : List CadEntity) :
    parseBasicDxfLoop ((ls.map layerRecLines).flatten ++ rest) false acc
      = parseBasicDxfLoop rest false acc := by
  induction ls with
  | nil => simp
  | cons l ls ih =>
    simp only [List.map_cons, List.flatten_cons, layerRecLines, List.append_assoc,
      List.cons_append, List.nil_append]
    rw [loop_zero_skip_outside _ _ _ (by decide),
      loop_skip_pair _ _ _ _ _ (by decide),
      loop_skip_pair _ _ _ _ _ (by decide),
      loop_skip_pair _ _ _ _ _ (by decide),
      loop_skip_pair _ _ _ _ _ (by decide)]
    exact ih

theorem loop_tables (layers : List String) (rest : List String) (acc : List CadEntity) :
    parseBasicDxfLoop (dxfTablesLines layers ++ rest) false acc
      = parseBasicDxfLoop rest false acc := by
  unfold dxfTablesLines
  simp only [List.append_assoc, List.cons_append, List.nil_append]
  rw [loop_section_other_outside _ _ _ (by decide),
    loop_skip_pair _ _ _ _ _ (by decide),
    loop_zero_skip_outside _ _ _ (by decide),
    loop_skip_pair _ _ _ _ _ (by decide),
    loop_skip_pair _ _ _ _ _ (by decide),
    loop_layerRecs,
    loop_zero_skip_outside _ _ _ (by decide),
    loop_zero_skip_outside _ _ _ (by decide)]

theorem loop_header (rest : List String) (acc : List CadEntity) :
    parseBasicDxfLoop (dxfHeaderLines ++ rest) false acc
      = parseBasicDxfLoop rest false acc := by
  simp only [dxfHeaderLines, List.cons_append, List.nil_append]
  rw [loop_section_other_outside _ _ _ (by decide),
    loop_skip_pair _ _ _ _ _ (by decide),
    loop_skip_pair _ _ _ _ _ (by decide),
    loop_skip_pair _ _ _ _ _ (by decide),
    loop_skip_pair _ _ _ _ _ (by decide),
    loop_skip_pair _ _ _ _ _ (by decide),
    loop_zero_skip_outside _ _ _ (by decide)]

theorem records_head (es : List CadEntity) (rest : List String)
    (hrest : rest.head? = some "0") :
    ((es.filterMap entityToDxfLines).flatten ++ rest).head? = some "0" := by
  induction es with
  | nil => simpa using hrest
  | cons e es ih =>
    rw [List.filterMap_cons]
    cases h : entityToDxfLines e with
    | none => simpa using ih
    | some L =>
      have hh := recordLines_head e L h
      cases L with
      | nil => cases hh
      | cons x xs =>
        obtain rfl : x = "0" := by simpa using hh
        simp

/-- Decoding walks the encoded ENTITIES records back into exactly the
normal-form entities that produced them. -/
theorem loop_records (es : List CadEntity) :
    ∀ (rest : List String) (acc : List CadEntity),
      (∀ e ∈ es, wfLine e ∨ wfInsert e) → rest.head? = some "0" →
      parseBasicDxfLoop ((es.filterMap entityToDxfLines).flatten ++ rest) true acc
        = parseBasicDxfLoop rest true (acc ++ es) := by
  induction es with
  | nil => intro rest acc _ _; simp
  | cons e es ih =>
    intro rest acc hwf hrest
    have hwfe := hwf e (List.mem_cons_self e es)
    have hwftail : ∀ x ∈ es, wfLine x ∨ wfInsert x :=
      fun x hx => hwf x (List.mem_cons_of_mem e hx)
    have hR : ((es.filterMap entityToDxfLines).flatten ++ rest).head? = some "0" :=
      records_head es rest hrest
    obtain ⟨ty, la, st, ed, bl, ip, sc, ro, ce, ra, ve, sh, te, po, hei, ha, oh⟩ := e
    rcases hwfe with hw | hw
    · obtain ⟨htype, hlay, hstart, hend, hblock, hip, hscale, hrot, hcenter, hradius,
        hextra⟩ := hw
      obtain ⟨hve, hsh, hte, hpo, hhei, hha, hoh⟩ := hextra
      have h01 : ty = some "LINE" := htype
      have h02 : bl = none := hblock
      have h03 : ip = none := hip
      have h04 : sc = none := hscale
      have h05 : ro = none := hrot
      have h06 : ce = none := hcenter
      have h07 : ra = none := hradius
      have h08 : ve = none := hve
      have h09 : sh = none := hsh
      have h10 : te = none := hte
      have h11 : po = none := hpo
      have h12 : hei = none := hhei
      have h13 : ha = none := hha
      have h14 : oh = none := hoh
      subst h01 h02 h03 h04 h05 h06 h07 h08 h09 h10 h11 h12 h13 h14
      have hlay1 : cleanOptStr la := hlay
      have hstart1 : decVec st := hstart
      have hend1 : decVec ed := hend
      obtain ⟨l, hl, hjs, hcl⟩ := cleanOptStr_jsOrStr la "0" hlay1
      subst hl
      rcases hst : st with _ | s
      · rw [hst] at hstart1; cases hstart1
      subst hst
      rcases hed : ed with _ | en
      · rw [hed] at hend1; cases hend1
      subst hed
      have hsv : decNum s.x ∧ decNum s.y ∧ decNum s.z := hstart1
      have hev : decNum en.x ∧ decNum en.y ∧ decNum en.z := hend1
      obtain ⟨sx, sy, sz⟩ := s
      obtain ⟨ex2, ey2, ez2⟩ := en
      have hlines : entityToDxfLines
          { type := some "LINE", layer := some l, start := some ⟨sx, sy, sz⟩,
            «end» := some ⟨ex2, ey2, ez2⟩ }
          = some (["0", "LINE", "8", l,
              "10", numStr sx, "20", numStr sy, "30", numStr sz,
              "11", numStr ex2, "21", numStr ey2, "31", numStr ez2]) := by
        unfold entityToDxfLines
        rw [if_pos rfl]
        unfold lineToDxfLines
        simp only [jsOrVec, Option.getD_some]
        rw [show jsOrStr (some l) "0" = l from by simp [jsOrStr, hcl.1]]
      rw [List.filterMap_cons, hlines]
      simp only [List.flatten_cons, List.append_assoc, List.cons_append, List.nil_append]
      rw [loop_line_inside,
        parseLine_record l (numStr sx) (numStr sy) (numStr sz)
          (numStr ex2) (numStr ey2) (numStr ez2) _ hR,
        parseFloat_numStr sx hsv.1, parseFloat_numStr sy hsv.2.1,
        parseFloat_numStr sz hsv.2.2, parseFloat_numStr ex2 hev.1,
        parseFloat_numStr ey2 hev.2.1, parseFloat_numStr ez2 hev.2.2,
        loop_skip_pair _ _ _ _ _ (by decide), loop_skip_pair _ _ _ _ _ (by decide),
        loop_skip_pair _ _ _ _ _ (by decide), loop_skip_pair _ _ _ _ _ (by decide),
        loop_skip_pair _ _ _ _ _ (by decide), loop_skip_pair _ _ _ _ _ (by decide),
        loop_skip_pair _ _ _ _ _ (by decide),
        ih rest (acc ++ [_]) hwftail hrest]
      simp
    · obtain ⟨htype, hlay, hblk, hip, hscale, hrot, hstart, hend, hcenter, hradius,
        hextra⟩ := hw
      obtain ⟨hve, hsh, hte, hpo, hhei, hha, hoh⟩ := hextra
      have h01 : ty = some "INSERT" := htype
      have h02 : st = none := hstart
      have h03 : ed = none := hend
      have h04 : ro = some (JsNum.num 0) := hrot
      have h05 : ce = none := hcenter
      have h06 : ra = none := hradius
      have h07 : ve = none := hve
      have h08 : sh = none := hsh
      have h09 : te = none := hte
      have h10 : po = none := hpo
      have h11 : hei = none := hhei
      have h12 : ha = none := hha
      have h13 : oh = none := hoh
      subst h01 h02 h03 h04 h05 h06 h07 h08 h09 h10 h11 h12 h13
      have hlay1 : cleanOptStr la := hlay
      have hblk1 : cleanOptStr bl := hblk
      have hip1 : decVec ip := hip
      have hscale1 : decVec sc := hscale
      obtain ⟨l, hl, hjs, hcl⟩ := cleanOptStr_jsOrStr la "0" hlay1
      subst hl
      obtain ⟨b, hb, hjb, hclb⟩ := cleanOptStr_jsOrStr bl "UNKNOWN" hblk1
      subst hb
      rcases hipv : ip with _ | p
      · rw [hipv] at hip1; cases hip1
      subst hipv
      rcases hscv : sc with _ | s
      · rw [hscv] at hscale1; cases hscale1
      subst hscv
      have hpv : decNum p.x ∧ decNum p.y ∧ decNum p.z := hip1
      have hsv : decNum s.x ∧ decNum s.y ∧ decNum s.z := hscale1
      obtain ⟨px, py, pz⟩ := p
      obtain ⟨sx, sy, sz⟩ := s
      have hlines : entityToDxfLines
          { type := some "INSERT", layer := some l, block := some b,
            insertion_point := some ⟨px, py, pz⟩, scale := some ⟨sx, sy, sz⟩,
            rotation := some (JsNum.num 0) }
          = some (["0", "INSERT", "2", b, "8", l,
              "10", numStr px, "20", numStr py, "30", numStr pz,
              "41", numStr sx, "42", numStr sy, "43", numStr sz,
              "50", numStr (JsNum.num 0)]) := by
        unfold entityToDxfLines
        rw [if_neg (by simp), if_pos rfl]
        unfold insertToDxfLines
        simp only [jsOrVec, Option.getD_some]
        rw [show jsOrStr (some l) "0" = l from by simp [jsOrStr, hcl.1],
          show jsOrStr (some b) "UNKNOWN" = b from by simp [jsOrStr, hclb.1],
          show jsOrNum (some (JsNum.num 0)) (JsNum.num 0) = JsNum.num 0 from rfl]
      rw [List.filterMap_cons, hlines]
      simp only [List.flatten_cons, List.append_assoc, List.cons_append, List.nil_append]
      rw [loop_insert_inside,
        parseInsert_record b l (numStr px) (numStr py) (numStr pz)
          (numStr sx) (numStr sy) (numStr sz) (numStr (JsNum.num 0)) _ hR,
        parseFloat_numStr px hpv.1, parseFloat_numStr py hpv.2.1,
        parseFloat_numStr pz hpv.2.2, parseFloat_numStr sx hsv.1,
        parseFloat_numStr sy hsv.2.1, parseFloat_numStr sz hsv.2.2,
        loop_skip_pair _ _ _ _ _ (by decide), loop_skip_pair _ _ _ _ _ (by decide),
        loop_skip_pair _ _ _ _ _ (by decide), loop_skip_pair _ _ _ _ _ (by decide),
        loop_skip_pair _ _ _ _ _ (by decide), loop_skip_pair _ _ _ _ _ (by decide),
        loop_skip_pair _ _ _ _ _ (by decide), loop_skip_pair _ _ _ _ _ (by decide),
        loop_skip_pair _ _ _ _ _ (by decide),
        ih rest (acc ++ [_]) hwftail hrest]
      simp

theorem tablesLines_clean (layers : List String)
    (hlay : ∀ x ∈ layers, lineSafe x) :
    ∀ l ∈ dxfTablesLines layers, lineSafe l := by
  intro l hl
  unfold dxfTablesLines at hl
  rcases List.mem_append.mp hl with h1 | h1
  · rcases List.mem_append.mp h1 with h2 | h2
    · simp only [List.mem_cons, List.not_mem_nil, or_false] at h2
      rcases h2 with rfl | rfl | rfl | rfl | rfl | rfl | rfl | rfl | rfl | rfl <;>
        first
          | decide
          | exact natToString_clean _
    · obtain ⟨L, hL, hlL⟩ := List.mem_flatten.mp h2
      obtain ⟨x, hx, rfl⟩ := List.mem_map.mp hL
      simp only [layerRecLines, List.mem_cons, List.not_mem_nil, or_false] at hlL
      rcases hlL with rfl | rfl | rfl | rfl | rfl | rfl | rfl | rfl | rfl | rfl <;>
        first
          | decide
          | exact hlay _ hx
  · simp only [List.mem_cons, List.not_mem_nil, or_false] at h1
    rcases h1 with rfl | rfl | rfl | rfl <;> decide

theorem headerLines_clean : ∀ l ∈ dxfHeaderLines, lineSafe l := by
  decide

theorem entSectionLines_clean :
    ∀ l ∈ (["0", "SECTION", "2", "ENTITIES"] : List String), lineSafe l := by
  decide

theorem endsecLines_clean :
    ∀ l ∈ (["0", "ENDSEC"] : List String), lineSafe l := by
  decide

theorem eofLines_clean :
    ∀ l ∈ (["0", "EOF"] : List String), lineSafe l := by
  decide

theorem docLines_clean (doc : CadDocument) (h : wellFormedLineInsertDoc doc) :
    ∀ l ∈ (dxfHeaderLines
      ++ dxfTablesLines (collectLayers doc.entities)
      ++ (["0", "SECTION", "2", "ENTITIES"]
          ++ (doc.entities.filterMap entityToDxfLines).flatten ++ ["0", "ENDSEC"])
      ++ ["0", "EOF"]), lineSafe l := by
  intro l hl
  rcases List.mem_append.mp hl with h1 | h1
  · rcases List.mem_append.mp h1 with h2 | h2
    · rcases List.mem_append.mp h2 with h3 | h3
      · exact headerLines_clean l h3
      · refine tablesLines_clean _ ?_ l h3
        intro x hx
        rcases collectLayers_mem doc.entities x hx with rfl | ⟨e, he, hlay⟩
        · decide
        · rcases h e he with hw | hw
          · rcases hlx : e.layer with _ | s
            · rw [hlx] at hlay; cases hlay
            · have hcs : cleanStr s := by
                have := hw.2.1
                rw [hlx] at this
                exact this
              obtain rfl : x = s := by rw [hlx] at hlay; exact (Option.some.inj hlay).symm
              exact hcs.2
          · rcases hlx : e.layer with _ | s
            · rw [hlx] at hlay; cases hlay
            · have hcs : cleanStr s := by
                have := hw.2.1
                rw [hlx] at this
                exact this
              obtain rfl : x = s := by rw [hlx] at hlay; exact (Option.some.inj hlay).symm
              exact hcs.2
    · rcases List.mem_append.mp h2 with h3 | h3
      · rcases List.mem_append.mp h3 with h4 | h4
        · exact entSectionLines_clean l h4
        · obtain ⟨L, hL, hlL⟩ := List.mem_flatten.mp h4
          obtain ⟨e, he, hfe⟩ := List.mem_filterMap.mp hL
          exact recordLines_clean e (h e he) L hfe l hlL
      · exact endsecLines_clean l h3
  · exact eofLines_clean l h1

/-! ### Characterizing the layer table -/

theorem collectLayers_cons_aux (es : List CadEntity) :
    ∀ racc : List String, (∀ e ∈ es, e.layer ≠ none ∧ e.layer ≠ some "") →
    es.foldl (fun acc e =>
        match e.layer with
        | some l => if l ≠ "" ∧ l ∉ acc then acc ++ [l] else acc
        | none => acc) ("0" :: racc)
      = "0" :: es.foldl (fun acc e =>
        match e.layer with
        | some l => if l = "0" ∨ l ∈ acc then acc else acc ++ [l]
        | none => acc) racc := by
  induction es with
  | nil => intro racc _; rfl
  | cons e es ih =>
    intro racc hv
    rw [List.foldl_cons, List.foldl_cons]
    have he := hv e (List.mem_cons_self e es)
    have hvt : ∀ x ∈ es, x.layer ≠ none ∧ x.layer ≠ some "" :=
      fun x hx => hv x (List.mem_cons_of_mem e hx)
    rcases hlay : e.layer with _ | s
    · rw [hlay] at he
      exact absurd rfl he.1
    · simp only [hlay]
      have hs : s ≠ "" := by
        rw [hlay] at he
        intro hc
        exact he.2 (by rw [hc])
      by_cases hmem : s = "0" ∨ s ∈ racc
      · have hnot : ¬(s ≠ "" ∧ s ∉ "0" :: racc) := by
          intro hcon
          exact hcon.2 (by simpa using hmem)
        rw [if_neg hnot, if_pos hmem]
        exact ih racc hvt
      · have hyes : s ≠ "" ∧ s ∉ "0" :: racc := by
          refine ⟨hs, ?_⟩
          simpa using hmem
        rw [if_pos hyes, if_neg hmem]
        rw [show ("0" :: racc) ++ [s] = "0" :: (racc ++ [s]) from rfl]
        exact ih (racc ++ [s]) hvt

/-- Under the data-model invariant (every entity has a present, non-empty
layer), the layer list of the TABLES section is exactly `"0"` followed by
the spec's first-seen sequence of non-default layers. -/
theorem collectLayers_spec (es : List CadEntity)
    (hv : ∀ e ∈ es, e.layer ≠ none ∧ e.layer ≠ some "") :
    collectLayers es = "0" :: specLayerSeq es :=
  collectLayers_cons_aux es [] hv

theorem collectLayers_nodup_aux (es : List CadEntity) :
    ∀ acc : List String, acc.Nodup →
    (es.foldl (fun acc e =>
        match e.layer with
        | some l => if l ≠ "" ∧ l ∉ acc then acc ++ [l] else acc
        | none => acc) acc).Nodup := by
  induction es with
  | nil => intro acc hacc; exact hacc
  | cons e es ih =>
    intro acc hacc
    rw [List.foldl_cons]
    rcases hlay : e.layer with _ | s
    · simp only [hlay]
      exact ih acc hacc
    · simp only [hlay]
      by_cases hcond : s ≠ "" ∧ s ∉ acc
      · rw [if_pos hcond]
        refine ih _ ?_
        simp [List.nodup_append, hacc, hcond.2]
      · rw [if_neg hcond]
        exact ih acc hacc

theorem collectLayers_nodup (es : List CadEntity) : (collectLayers es).Nodup :=
  collectLayers_nodup_aux es ["0"] (by simp)

theorem collectLayers_acc_subset (es : List CadEntity) :
    ∀ acc : List String, ∀ l ∈ acc,
    l ∈ es.foldl (fun acc e =>
        match e.layer with
        | some l => if l ≠ "" ∧ l ∉ acc then acc ++ [l] else acc
        | none => acc) acc := by
  induction es with
  | nil => intro acc l hl; exact hl
  | cons e es ih =>
    intro acc l hl
    rw [List.foldl_cons]
    rcases hlay : e.layer with _ | s
    · simp only [hlay]
      exact ih acc l hl
    · simp only [hlay]
      by_cases hcond : s ≠ "" ∧ s ∉ acc
      · rw [if_pos hcond]
        exact ih _ l (List.mem_append_left _ hl)
      · rw [if_neg hcond]
        exact ih acc l hl

theorem collectLayers_mem_of (es : List CadEntity) :
    ∀ acc : List String, ∀ l, (∃ e ∈ es, e.layer = some l) → l ≠ "" →
    l ∈ es.foldl (fun acc e =>
        match e.layer with
        | some l => if l ≠ "" ∧ l ∉ acc then acc ++ [l] else acc
        | none => acc) acc := by
  induction es with
  | nil => intro acc l hex _; simp at hex
  | cons e es ih =>
    intro acc l hex hne
    rw [List.foldl_cons]
    obtain ⟨e', he', hlay'⟩ := hex
    rcases List.mem_cons.mp he' with rfl | he'
    · simp only [hlay']
      by_cases hcond : l ≠ "" ∧ l ∉ acc
      · rw [if_pos hcond]
        exact collectLayers_acc_subset es _ l (by simp)
      · rw [if_neg hcond]
        have hmem : l ∈ acc := by
          by_contra hno
          exact hcond ⟨hne, hno⟩
        exact collectLayers_acc_subset es acc l hmem
    · rcases hlay : e.layer with _ | s
      · simp only [hlay]
        exact ih acc l ⟨e', he', hlay'⟩ hne
      · simp only [hlay]
        by_cases hcond : s ≠ "" ∧ s ∉ acc <;>
          [rw [if_pos hcond]; rw [if_neg hcond]] <;>
          exact ih _ l ⟨e', he', hlay'⟩ hne

theorem collectLayers_mem_iff (es : List CadEntity)
    (hv : ∀ e ∈ es, e.layer ≠ none ∧ e.layer ≠ some "") (l : String) :
    l ∈ collectLayers es ↔ (l = "0" ∨ ∃ e ∈ es, e.layer = some l) := by
  constructor
  · exact collectLayers_mem es l
  · intro hor
    rcases hor with rfl | hex
    · exact collectLayers_acc_subset es ["0"] "0" (by simp)
    · have hne : l ≠ "" := by
        obtain ⟨e, he, hlay⟩ := hex
        have := (hv e he).2
        intro hc
        rw [hc] at hlay
        exact this hlay
      exact collectLayers_mem_of es ["0"] l hex hne

/-! ### Remaining small helpers for the claims -/

theorem loop_skip_pairs (ps : List (String × String)) :
    ∀ (rest : List String) (b : Bool) (acc : List CadEntity), (∀ p ∈ ps, p.1 ≠ "0") →
    parseBasicDxfLoop (pairsToLines ps ++ rest) b acc = parseBasicDxfLoop rest b acc := by
  induction ps with
  | nil => intro rest b acc _; rfl
  | cons p ps ih =>
    intro rest b acc hp
    obtain ⟨c, v⟩ := p
    show parseBasicDxfLoop (c :: v :: (pairsToLines ps ++ rest)) b acc = _
    rw [loop_skip_pair _ _ _ _ _ (hp (c, v) (List.mem_cons_self _ _))]
    exact ih rest b acc (fun x hx => hp x (List.mem_cons_of_mem _ hx))

theorem parseInsertLoop_pairs (ps : List (String × String)) :
    ∀ (rest : List String) (e : CadEntity), (∀ p ∈ ps, p.1 ≠ "0") → rest.head? = some "0" →
    parseInsertLoop (pairsToLines ps ++ rest) e
      = ps.foldl (fun a p => insertFieldUpdate a p.1 (some p.2)) e := by
  induction ps with
  | nil =>
    intro rest e _ h
    simpa [pairsToLines] using parseInsertLoop_stop rest e h
  | cons p ps ih =>
    intro rest e hp h
    obtain ⟨c, v⟩ := p
    show parseInsertLoop (c :: v :: (pairsToLines ps ++ rest)) e = _
    rw [parseInsertLoop_step _ _ _ _ (hp (c, v) (List.mem_cons_self _ _))]
    rw [ih rest _ (fun x hx => hp x (List.mem_cons_of_mem _ hx)) h]
    rfl

theorem entityToDxf_eq_none (e : CadEntity) :
    entityToDxf e = none ↔ supportedKind e = false := by
  unfold entityToDxf supportedKind
  split_ifs <;> simp [*]

theorem filterMap_entityToDxf_filter (es : List CadEntity) :
    es.filterMap entityToDxf = (es.filter supportedKind).filterMap entityToDxf := by
  induction es with
  | nil => rfl
  | cons e es ih =>
    rw [List.filterMap_cons, List.filter_cons]
    cases hs : supportedKind e with
    | false =>
      have hnone : entityToDxf e = none := (entityToDxf_eq_none e).mpr hs
      simp [hnone, hs, ih]
    | true =>
      cases hd : entityToDxf e <;> simp [hd, hs, List.filterMap_cons, ih]

/-! ## The claims -/

/-- C1, counterexample: the claimed LINE/INSERT/CIRCLE round trip fails on
the code.  Encoding `circleInsertDoc` (one CIRCLE, one INSERT with
rotation 45) and decoding the result loses the circle entirely (the
fallback parser has no CIRCLE branch) and resets the rotation to 0 (no
branch for group code 50), so the decoded document is not equal to the
original under any numeric tolerance or field defaulting. -/
theorem c1_counterexample :
    (parseBasicDxf "T" (jsonToDxf circleInsertDoc)).entities.length = 1
    ∧ circleInsertDoc.entities.length = 2
    ∧ ((parseBasicDxf "T" (jsonToDxf circleInsertDoc)).entities.map (fun e => e.rotation))
        = [some (JsNum.num 0)]
    ∧ (circleInsertDoc.entities.map (fun e => e.rotation)) = [none, some (JsNum.num 45)] :=
  ⟨by decide, by decide, by decide, by decide⟩

/-- C1, amended: for every document containing only normal-form LINE and
INSERT entities (present, non-empty layer/block strings with no newline
and unchanged by trim, finite decimal coordinates, INSERT rotation 0),
decoding the interchange text produced by
the interchange encoder yields exactly the original entity list; the
decoded metadata is the decoder's fixed default (version 1 plus the call
timestamp). -/
theorem c1_roundtrip (doc : CadDocument) (now : String) (h : wellFormedLineInsertDoc doc) :
    (parseBasicDxf now (jsonToDxf doc)).entities = doc.entities := by
  show parseBasicDxfLoop ((splitLines (jsonToDxf doc)).map jsTrim) false [] = doc.entities
  rw [jsonToDxf_lines, splitLines_linesToText _ (docLines_clean doc h)]
  simp only [List.append_assoc, List.cons_append, List.nil_append]
  rw [loop_header, loop_tables, loop_enter_entities]
  rw [loop_records doc.entities ("0" :: "ENDSEC" :: "0" :: "EOF" :: [""]) []
    (fun e he => h e he) rfl]
  rw [loop_endsec_inside, loop_zero_skip_outside _ _ _ (by decide), loop_single]
  simp

/-- C1 witness: the round trip evaluated on a concrete two-entity
document. -/
theorem c1_roundtrip_witness :
    (parseBasicDxf "2024-01-01T00:00:00.000Z" (jsonToDxf sampleLineInsertDoc)).entities
      = sampleLineInsertDoc.entities :=
  c1_roundtrip sampleLineInsertDoc "2024-01-01T00:00:00.000Z" (by decide)

/-- C2, counterexample: the decoder does not map group code 50 to the
rotation: decoding an INSERT record whose code 50 carries 45 yields
rotation 0, not 45. -/
theorem c2_counterexample :
    (parseBasicDxf "T" "0\nSECTION\n2\nENTITIES\n0\nINSERT\n50\n45\n0\nENDSEC\n0\nEOF\n").entities
      = [{ type := some "INSERT", layer := some "0", block := some "",
           insertion_point := some ⟨JsNum.num 0, JsNum.num 0, JsNum.num 0⟩,
           scale := some ⟨JsNum.num 1, JsNum.num 1, JsNum.num 1⟩,
           rotation := some (JsNum.num 0) }]
    ∧ (JsNum.num 45 : JsNum) ≠ JsNum.num 0 :=
  ⟨by decide, by decide⟩

/-- C2, amended: for every INSERT record body, `parseInsert` folds the
`(code, value)` pairs through `insertFieldUpdate`, which maps code 2 to
the block name, 8 to the layer, 10/20/30 to the insertion point and
41/42/43 to the scale, and ignores — without error — every other code,
including 50 (so the rotation keeps its default 0). -/
theorem c2_insert_mapping :
    (∀ (ps : List (String × String)) (rest : List String),
        (∀ p ∈ ps, p.1 ≠ "0") → rest.head? = some "0" →
        parseInsert (pairsToLines ps ++ rest)
          = ps.foldl (fun a p => insertFieldUpdate a p.1 (some p.2)) insertEntityInit)
    ∧ (∀ e v, insertFieldUpdate e "2" (some v) = { e with block := some v })
    ∧ (∀ e v, insertFieldUpdate e "8" (some v) = { e with layer := some v })
    ∧ (∀ e v, insertFieldUpdate e "10" v
        = { e with insertion_point := setVecX e.insertion_point (parseFloatOpt v) })
    ∧ (∀ e v, insertFieldUpdate e "20" v
        = { e with insertion_point := setVecY e.insertion_point (parseFloatOpt v) })
    ∧ (∀ e v, insertFieldUpdate e "30" v
        = { e with insertion_point := setVecZ e.insertion_point (parseFloatOpt v) })
    ∧ (∀ e v, insertFieldUpdate e "41" v = { e with scale := setVecX e.scale (parseFloatOpt v) })
    ∧ (∀ e v, insertFieldUpdate e "42" v = { e with scale := setVecY e.scale (parseFloatOpt v) })
    ∧ (∀ e v, insertFieldUpdate e "43" v = { e with scale := setVecZ e.scale (parseFloatOpt v) })
    ∧ (∀ e c v, c ∉ (["2", "8", "10", "20", "30", "41", "42", "43"] : List String) →
        insertFieldUpdate e c v = e) := by
  refine ⟨?_, fun e v => rfl, fun e v => rfl, fun e v => rfl, fun e v => rfl, fun e v => rfl,
    fun e v => rfl, fun e v => rfl, fun e v => rfl, ?_⟩
  · intro ps rest hp h
    exact parseInsertLoop_pairs ps rest insertEntityInit hp h
  · intro e c v hc
    have h1 : c ≠ "2" := fun hx => hc (by rw [hx]; simp)
    have h2 : c ≠ "8" := fun hx => hc (by rw [hx]; simp)
    have h3 : c ≠ "10" := fun hx => hc (by rw [hx]; simp)
    have h4 : c ≠ "20" := fun hx => hc (by rw [hx]; simp)
    have h5 : c ≠ "30" := fun hx => hc (by rw [hx]; simp)
    have h6 : c ≠ "41" := fun hx => hc (by rw [hx]; simp)
    have h7 : c ≠ "42" := fun hx => hc (by rw [hx]; simp)
    have h8 : c ≠ "43" := fun hx => hc (by rw [hx]; simp)
    simp [insertFieldUpdate, h1, h2, h3, h4, h5, h6, h7, h8]

/-- C2 witness: the fold characterization applied to a concrete body (a
layer pair and an ignored code-50 pair). -/
theorem c2_insert_mapping_witness :
    parseInsert (pairsToLines [("8", "A"), ("50", "45")] ++ ["0", "ENDSEC"])
      = { insertEntityInit with layer := some "A" } := by
  have h := c2_insert_mapping.1 [("8", "A"), ("50", "45")] ["0", "ENDSEC"] (by decide) rfl
  rw [h]
  decide

/-- C3: the claim states the spec's invariant (§3, §7) that a numeric
parse failure resolves to the documented default and NaN is never stored;
the code stores `Number.parseFloat`'s NaN directly (spec §9 itself flags
this).  Decoding a LINE whose group-code-10 value is `abc` stores NaN in
`start[0]` instead of keeping the default 0. -/
theorem c3_nan_propagation :
    (parseBasicDxf "T" nanDxfText).entities
      = [{ type := some "LINE", layer := some "0",
           start := some ⟨JsNum.nan, JsNum.num 0, JsNum.num 0⟩,
           «end» := some ⟨JsNum.num 0, JsNum.num 0, JsNum.num 0⟩ }]
    ∧ parseFloat "abc" = JsNum.nan :=
  ⟨by decide, by decide⟩

/-- C4, counterexample: an entity block with an unimplemented type name
(TEXT, layer L) is dropped entirely — no UNKNOWN entity capturing the
layer appears in the decoded document. -/
theorem c4_counterexample :
    (parseBasicDxf "T" textDxfText).entities = []
    ∧ ¬∃ e ∈ (parseBasicDxf "T" textDxfText).entities, e.type = some "UNKNOWN" :=
  ⟨by decide, by decide⟩

/-- C4, amended: inside the ENTITIES section, an entity block whose type
name is outside the implemented table (LINE, INSERT — and is not one of
the section-control words SECTION/ENDSEC) contributes no entity at all:
its pairs are skipped and decoding continues at the next block with the
accumulator unchanged. -/
theorem c4_unknown_skipped (n : String) (ps : List (String × String)) (rest : List String)
    (acc : List CadEntity)
    (hn : n ∉ (["SECTION", "ENDSEC", "LINE", "INSERT"] : List String))
    (hp : ∀ p ∈ ps, p.1 ≠ "0") :
    parseBasicDxfLoop ("0" :: n :: (pairsToLines ps ++ rest)) true acc
      = parseBasicDxfLoop rest true acc := by
  have h1 : n ≠ "SECTION" := fun hx => hn (by rw [hx]; simp)
  have h2 : n ≠ "ENDSEC" := fun hx => hn (by rw [hx]; simp)
  have h3 : n ≠ "LINE" := fun hx => hn (by rw [hx]; simp)
  have h4 : n ≠ "INSERT" := fun hx => hn (by rw [hx]; simp)
  rw [loop_unknown_inside n _ acc h1 h2 h3 h4]
  exact loop_skip_pairs ps rest true acc hp

/-- C4 witness: a TEXT block with one layer pair is skipped whole, and the
subsequent stream decodes as if the block were absent. -/
theorem c4_unknown_skipped_witness :
    parseBasicDxfLoop ("0" :: "TEXT" :: (pairsToLines [("8", "L")] ++ ["0", "ENDSEC"])) true []
      = parseBasicDxfLoop ["0", "ENDSEC"] true []
    ∧ parseBasicDxfLoop ["0", "ENDSEC"] true [] = [] :=
  ⟨c4_unknown_skipped "TEXT" [("8", "L")] ["0", "ENDSEC"] [] (by decide) (by decide),
    by decide⟩

/-- C5, counterexample: the encoder returns only the output text and no
warning list; a skipped entity leaves no record in the return value — a
document with an unsupported TEXT entity encodes to the very same string
as the document without it. -/
theorem c5_counterexample :
    jsonToDxf { entities := [textEntity] } = jsonToDxf { entities := [] }
    ∧ ([textEntity] : List CadEntity) ≠ [] :=
  ⟨by decide, by decide⟩

/-- C5, amended: the interchange encoder emits entity records only for the
supported kinds (LINE, INSERT, CIRCLE) and silently skips every other
entity without aborting (it is a total function), but it returns only the
text: no warning list records the skipped entities. -/
theorem c5_encoder_skips :
    (∀ es : List CadEntity, dxfEntities es = dxfEntities (es.filter supportedKind))
    ∧ (∀ e : CadEntity, entityToDxf e = none ↔ supportedKind e = false) := by
  constructor
  · intro es
    unfold dxfEntities
    rw [filterMap_entityToDxf_filter]
  · exact entityToDxf_eq_none

/-- C6: the TABLES block carries one LAYER record per element of
`collectLayers doc.entities` (the last conjunct), and under the data-model
invariant that every entity has a present, non-empty layer, that list is
exactly the default layer `"0"` followed by the distinct non-default
layers in first-seen entity order — duplicate-free, and containing a
layer name iff it is `"0"` or the layer of some entity. -/
theorem c6_layer_table (doc : CadDocument)
    (h : ∀ e ∈ doc.entities, e.layer ≠ none ∧ e.layer ≠ some "") :
    collectLayers doc.entities = "0" :: specLayerSeq doc.entities
    ∧ (collectLayers doc.entities).Nodup
    ∧ (∀ l, l ∈ collectLayers doc.entities ↔ (l = "0" ∨ ∃ e ∈ doc.entities, e.layer = some l))
    ∧ dxfTables doc = linesToText (dxfTablesLines (collectLayers doc.entities)) :=
  ⟨collectLayers_spec _ h, collectLayers_nodup _,
    collectLayers_mem_iff _ h, rfl⟩

/-- C6 witness, scenario D: entities on layers A, A and the default yield
exactly the two records 0 then A. -/
theorem c6_layer_table_witness :
    collectLayers scenarioDDoc.entities = "0" :: specLayerSeq scenarioDDoc.entities
    ∧ collectLayers scenarioDDoc.entities = ["0", "A"] :=
  ⟨(c6_layer_table scenarioDDoc (by decide)).1, by decide⟩

/-- C7, counterexample: an entity lacking its discriminating kind tag does
not abort the encode with a schema error naming the index and field — the
call succeeds and silently skips the entity, producing the very same text
as for the document without it. -/
theorem c7_counterexample :
    jsonToDxf { entities := [noTagEntity] } = jsonToDxf { entities := [] }
    ∧ ([noTagEntity] : List CadEntity) ≠ [] :=
  ⟨by decide, by decide⟩

/-- C7, amended: the encoder performs no schema validation.  An entity
with no kind tag is silently skipped by the ENTITIES serializer wherever
it occurs (its `entityToDxf` is `null`), and no fatal error exists: the
encoder is a total function of the document.  (The `entities`-is-not-a-list
half of the original claim lies outside the typed model: the TS signature
already requires a list.) -/
theorem c7_missing_tag (es1 es2 : List CadEntity) (e : CadEntity) (h : e.type = none) :
    dxfEntities (es1 ++ e :: es2) = dxfEntities (es1 ++ es2)
    ∧ entityToDxf e = none := by
  have hnone : entityToDxf e = none := by
    unfold entityToDxf
    rw [if_neg (by rw [h]; simp), if_neg (by rw [h]; simp), if_neg (by rw [h]; simp)]
  refine ⟨?_, hnone⟩
  unfold dxfEntities
  rw [List.filterMap_append, List.filterMap_append, List.filterMap_cons, hnone]

/-- C7 witness: the no-tag entity is skipped at a concrete position. -/
theorem c7_missing_tag_witness :
    dxfEntities ([] ++ noTagEntity :: []) = dxfEntities ([] ++ [])
    ∧ entityToDxf noTagEntity = none :=
  c7_missing_tag [] [] noTagEntity rfl

/-- C8: scenario B's document encodes through the script encoder to
exactly one block-placement command line, with the name CHAIR, the X,Y of
the insertion point, the X/Y scales and the rotation — the Z coordinate
and Z scale are dropped. -/
theorem c8_script_insert :
    jsonToScr scenarioBDoc = "_-INSERT \"CHAIR\" 1,2 1 1 45\n"
    ∧ (jsonToScr scenarioBDoc).data.count '\n' = 1 :=
  ⟨by decide, by decide⟩

/-- C9, counterexample: decode is not a pure function of the input text:
its metadata embeds the call-time timestamp (`new Date().toISOString()`,
the explicit `now` argument of the model), so two calls on the same input
at different instants return documents that differ in
`metadata.lastModified`. -/
theorem c9_counterexample :
    parseBasicDxf "2024-01-01T00:00:00.000Z" "" ≠ parseBasicDxf "2024-01-01T00:00:00.001Z" ""
    ∧ (parseBasicDxf "2024-01-01T00:00:00.000Z" "").metadata.map (fun m => m.lastModified)
      ≠ (parseBasicDxf "2024-01-01T00:00:00.001Z" "").metadata.map (fun m => m.lastModified) :=
  ⟨by decide, by decide⟩

/-- C9, amended: apart from the `lastModified` timestamp, decode is
deterministic — two calls on the same text yield identical entity lists
and identical metadata version — and encode is a pure function of the
document (and neither mutates its input, every value here being
immutable). -/
theorem c9_determinism (t1 t2 s : String) (doc : CadDocument) :
    (parseBasicDxf t1 s).entities = (parseBasicDxf t2 s).entities
    ∧ (parseBasicDxf t1 s).metadata.map (fun m => m.version)
      = (parseBasicDxf t2 s).metadata.map (fun m => m.version)
    ∧ jsonToDxf doc = jsonToDxf doc :=
  ⟨rfl, rfl, rfl⟩

/-- C10: the encoder's `||` fallbacks replace any falsy field value, not
only absent ones: a present radius 0 encodes exactly like radius 1, and a
present empty block name encodes exactly like the block name UNKNOWN. -/
theorem c10_falsy_fallback (e : CadEntity) :
    circleToDxf { e with radius := some (JsNum.num 0) }
      = circleToDxf { e with radius := some (JsNum.num 1) }
    ∧ insertToDxf { e with block := some "" }
      = insertToDxf { e with block := some "UNKNOWN" } :=
  ⟨rfl, rfl⟩


end CadCodec
